import Mathlib

/-!
Shallow embedding of the photobooth hub, printer controller, camera
controller, video stream frame extractor and browser client, together with
theorems settling the frozen claims about them.

Conventions: JavaScript byte buffers are `List Nat` (each entry < 256 where
it matters), strings are `String` or `List Char`, thrown errors are modelled
with `Except`, and every external effect (filesystem, spooler, socket
emission, timers) is recorded as an explicit action value so that theorems
can talk about which effects an operation performs.
-/

namespace Photobooth

/-! ## Per-connection capture sequencing (server/index.js, socket handlers) -/

/-- Per-connection capture state kept in the connection handler closure:
`{ isCapturing: false, prepared: false, error: null }`. -/
structure CaptureState where
  isCapturing : Bool
  prepared : Bool
  error : Option String
deriving Repr, DecidableEq

/-- The initial per-connection capture state from `server/index.js`. -/
def initialCaptureState : CaptureState :=
  { isCapturing := false, prepared := false, error := none }

/-- The `prepare-capture` socket handler: if a capture is executing and the
state is already prepared the request is ignored, otherwise the state is
reset and marked prepared. -/
def prepareCapture (s : CaptureState) : CaptureState :=
  if s.isCapturing && s.prepared then s
  else { isCapturing := false, prepared := true, error := none }

/-- Events the hub emits to the triggering socket during capture. -/
inductive HubEvent where
  | captureStarted : HubEvent
  | captureComplete : String → HubEvent
  | errorEvent : String → String → HubEvent
deriving Repr, DecidableEq

/-- The "not ready" message thrown by `execute-capture` when the state is
not prepared or carries an error. -/
def notReadyMsg : String := "Stream not ready - please try again"

/-- Result of one `execute-capture` handler run: the new capture state, the
events emitted to the socket, and whether `captureFrameFromStream` was
invoked at all. -/
structure ExecResult where
  state : CaptureState
  events : List HubEvent
  captureInvoked : Bool
deriving Repr, DecidableEq

/-- The `execute-capture` socket handler.  `streamCapture` stands for the
outcome of `videoStreamManager.captureFrameFromStream()` (a photo path on
success, an error message on failure); it is only consulted when the
handler actually reaches that call. -/
def executeCapture (s : CaptureState) (streamCapture : Except String String) : ExecResult :=
  if s.prepared && s.error == none then
    match streamCapture with
    | .ok path =>
        { state := { isCapturing := false, prepared := false, error := none }
          events := [.captureStarted, .captureComplete path]
          captureInvoked := true }
    | .error msg =>
        { state := { isCapturing := false, prepared := false, error := some msg }
          events := [.captureStarted, .errorEvent "Failed to capture from stream" msg]
          captureInvoked := true }
  else
    { state := { isCapturing := false, prepared := false, error := some notReadyMsg }
      events := [.errorEvent "Failed to capture from stream" notReadyMsg]
      captureInvoked := false }

/-- States whose error field can only be set while unprepared; both handlers
preserve this and the initial state satisfies it. -/
def stateInv (s : CaptureState) : Prop := s.prepared = true → s.error = none

theorem stateInv_initial : stateInv initialCaptureState := by
  intro h; rfl

theorem stateInv_prepare (s : CaptureState) (h : stateInv s) : stateInv (prepareCapture s) := by
  unfold prepareCapture
  split
  · exact h
  · intro _; rfl

theorem stateInv_execute (s : CaptureState) (r : Except String String) :
    stateInv (executeCapture s r).state := by
  unfold executeCapture
  split
  · cases r <;> exact fun hp => nomatch hp
  · exact fun hp => nomatch hp

/-! ## Streaming JPEG frame extraction (videoStreamManager stdout handlers) -/

/-- `buffer.indexOf(Buffer.from([x, y]))`: index of the first occurrence of
the two-byte pattern `x y` in the buffer, or `none`. -/
def findPattern (x y : Nat) : List Nat → Option Nat
  | [] => none
  | [_] => none
  | a :: b :: rest => if a = x ∧ b = y then some 0 else (findPattern x y (b :: rest)).map (· + 1)

/-- The trailing buffer-cap guard: `if (buffer.length > cap) buffer = Buffer.alloc(0)`. -/
def capBuffer (cap : Nat) (b : List Nat) : List Nat :=
  if cap < b.length then [] else b

/-- Result of one stdout `data` handler run on the accumulated buffer: the
extracted frame, if any, and the retained internal buffer. -/
structure ExtractResult where
  frame : Option (List Nat)
  buffer : List Nat
deriving Repr, DecidableEq

/-- One run of the stream stdout handler over the accumulated buffer
(`startHDMICaptureStream` uses `cap = 8*1024*1024`, `startBasicStream`
uses `cap = 1024*1024`; the marker logic is identical): find the first
JPEG start marker `FF D8` and the first end marker `FF D9`; if both exist
with the end marker strictly later, slice out the frame and keep the
bytes after the end marker; finally reset the buffer if it exceeds the cap. -/
def extractStep (cap : Nat) (buf : List Nat) : ExtractResult :=
  match findPattern 0xFF 0xD8 buf, findPattern 0xFF 0xD9 buf with
  | some s, some e =>
      if s < e then
        { frame := some ((buf.drop s).take (e + 2 - s)), buffer := capBuffer cap (buf.drop (e + 2)) }
      else
        { frame := none, buffer := capBuffer cap buf }
  | some _, none => { frame := none, buffer := capBuffer cap buf }
  | none, _ => { frame := none, buffer := capBuffer cap buf }

theorem findPattern_isSome_append (x y : Nat) :
    ∀ l : List Nat, (findPattern x y (l ++ [x, y])).isSome := by
  intro l
  induction l with
  | nil => simp [findPattern]
  | cons c l ih =>
    rcases l with _ | ⟨d, l'⟩
    · show (findPattern x y [c, x, y]).isSome
      rw [findPattern]
      split
      · rfl
      · simp [findPattern]
    · show (findPattern x y (c :: d :: (l' ++ [x, y]))).isSome
      rw [findPattern]
      split
      · rfl
      · have ih' : (findPattern x y (d :: (l' ++ [x, y]))).isSome := by
          simpa using ih
        rcases hm : findPattern x y (d :: (l' ++ [x, y])) with _ | j
        · rw [hm] at ih'; simp at ih'
        · rfl

theorem findPattern_spec (x y : Nat) :
    ∀ (l : List Nat) (i : Nat), findPattern x y l = some i →
      l.get? i = some x ∧ l.get? (i + 1) = some y := by
  intro l
  induction l with
  | nil => intro i h; simp [findPattern] at h
  | cons a rest ih =>
    intro i h
    rcases rest with _ | ⟨b, t⟩
    · simp [findPattern] at h
    · rw [findPattern] at h
      by_cases hxy : a = x ∧ b = y
      · rw [if_pos hxy] at h
        cases h
        simp [hxy.1, hxy.2]
      · rw [if_neg hxy] at h
        rcases i with _ | i
        · simp [Option.map_eq_some'] at h
        · have h' : findPattern x y (b :: t) = some i := by
            rcases hmap : findPattern x y (b :: t) with _ | j
            · rw [hmap] at h; simp at h
            · rw [hmap] at h
              simp only [Option.map_some'] at h
              cases h
              rfl
          have := ih i h'
          simpa using this

/-- C1: per-connection capture sequencing at the hub.  An `execute-capture`
received while the state is not prepared (or carries an error) fails with
the "not ready" error and invokes no capture operation; `prepare-capture`
followed by `execute-capture` (with a succeeding stream-frame extraction)
succeeds and leaves the state reset to
`{isCapturing := false, prepared := false, error := none}`; and a
`prepare-capture` received while `isCapturing` and `prepared` are both true
leaves the state unchanged. -/
theorem hub_capture_sequencing (s : CaptureState) (r : Except String String)
    (path : String) (hinv : stateInv s) :
    (s.prepared = false ∨ s.error ≠ none →
      executeCapture s r =
        { state := { isCapturing := false, prepared := false, error := some notReadyMsg }
          events := [.errorEvent "Failed to capture from stream" notReadyMsg]
          captureInvoked := false })
  ∧ (executeCapture (prepareCapture s) (.ok path) =
      { state := { isCapturing := false, prepared := false, error := none }
        events := [.captureStarted, .captureComplete path]
        captureInvoked := true })
  ∧ (s.isCapturing = true → s.prepared = true → prepareCapture s = s) := by
  refine ⟨?_, ?_, ?_⟩
  · intro hne
    have hcond : (s.prepared && s.error == none) = false := by
      rcases hne with h | h
      · simp [h]
      · simp [h]
    unfold executeCapture
    rw [if_neg (by simp [hcond])]
  · by_cases hc : (s.isCapturing && s.prepared) = true
    · have hprep : prepareCapture s = s := by
        unfold prepareCapture; rw [if_pos hc]
      have hparts := (Bool.and_eq_true _ _).mp hc
      have herr : s.error = none := hinv hparts.2
      rw [hprep]
      unfold executeCapture
      rw [if_pos (by simp [hparts.2, herr])]
    · have hprep : prepareCapture s =
          { isCapturing := false, prepared := true, error := none } := by
        unfold prepareCapture; rw [if_neg hc]
      rw [hprep]
      rfl
  · intro h1 h2
    unfold prepareCapture
    rw [if_pos (by simp [h1, h2])]

/-- Witness for C1 on concrete inputs: a fresh connection rejects
`execute-capture`, accepts it after `prepare-capture`, and an executing
prepared state ignores a second `prepare-capture`. -/
theorem hub_capture_sequencing_instance :
    (executeCapture initialCaptureState (.ok "/captures/photo_1.jpg") =
      { state := { isCapturing := false, prepared := false, error := some notReadyMsg }
        events := [.errorEvent "Failed to capture from stream" notReadyMsg]
        captureInvoked := false })
  ∧ (executeCapture (prepareCapture initialCaptureState) (.ok "/captures/photo_1.jpg") =
      { state := { isCapturing := false, prepared := false, error := none }
        events := [.captureStarted, .captureComplete "/captures/photo_1.jpg"]
        captureInvoked := true })
  ∧ prepareCapture { isCapturing := true, prepared := true, error := none } =
      { isCapturing := true, prepared := true, error := none } := by
  refine ⟨?_, ?_, ?_⟩
  · exact (hub_capture_sequencing initialCaptureState (.ok "/captures/photo_1.jpg")
      "/captures/photo_1.jpg" stateInv_initial).1 (Or.inl rfl)
  · exact (hub_capture_sequencing initialCaptureState (.ok "/captures/photo_1.jpg")
      "/captures/photo_1.jpg" stateInv_initial).2.1
  · exact (hub_capture_sequencing { isCapturing := true, prepared := true, error := none }
      (.ok "/captures/photo_1.jpg") "/captures/photo_1.jpg" (fun _ => rfl)).2.2 rfl rfl

/-- C6: a buffer of the form `FF D8 ++ payload ++ FF D9` yields exactly one
extracted frame running from the first start marker (index 0) through the
first end marker inclusive, and the retained internal buffer is exactly the
bytes following that end marker (the buffer cap, 1 MB or 8 MB depending on
path, is not hit since the whole buffer fits under it). -/
theorem frame_extractor_single_frame (cap : Nat) (p : List Nat)
    (hcap : p.length + 4 ≤ cap) :
    ∃ e, findPattern 0xFF 0xD9 (0xFF :: 0xD8 :: p ++ [0xFF, 0xD9]) = some e ∧
      findPattern 0xFF 0xD8 (0xFF :: 0xD8 :: p ++ [0xFF, 0xD9]) = some 0 ∧
      (0xFF :: 0xD8 :: p ++ [0xFF, 0xD9]).get? e = some 0xFF ∧
      (0xFF :: 0xD8 :: p ++ [0xFF, 0xD9]).get? (e + 1) = some 0xD9 ∧
      extractStep cap (0xFF :: 0xD8 :: p ++ [0xFF, 0xD9]) =
        { frame := some ((0xFF :: 0xD8 :: p ++ [0xFF, 0xD9]).take (e + 2))
          buffer := (0xFF :: 0xD8 :: p ++ [0xFF, 0xD9]).drop (e + 2) } := by
  have hsome : (findPattern 0xFF 0xD9 (0xFF :: 0xD8 :: p ++ [0xFF, 0xD9])).isSome := by
    have := findPattern_isSome_append 0xFF 0xD9 (0xFF :: 0xD8 :: p)
    simpa using this
  obtain ⟨e, he⟩ := Option.isSome_iff_exists.mp hsome
  have hspec := findPattern_spec 0xFF 0xD9 _ e he
  have hstart : findPattern 0xFF 0xD8 (0xFF :: 0xD8 :: p ++ [0xFF, 0xD9]) = some 0 := by
    rcases p with _ | ⟨q, p'⟩ <;> simp [findPattern]
  have hne : e ≠ 0 := by
    intro h0
    rw [h0] at hspec
    have h1 := hspec.2
    simp [List.get?] at h1
  have hpos : 0 < e := Nat.pos_of_ne_zero hne
  refine ⟨e, he, hstart, hspec.1, hspec.2, ?_⟩
  unfold extractStep
  rw [hstart, he]
  simp only [hpos, if_true]
  have hlen : ((0xFF :: 0xD8 :: p ++ [0xFF, 0xD9]).drop (e + 2)).length ≤ cap := by
    rw [List.length_drop]
    have hl : (0xFF :: 0xD8 :: p ++ [0xFF, 0xD9]).length = p.length + 4 := by
      simp
    omega
  have hcb : capBuffer cap ((0xFF :: 0xD8 :: p ++ [0xFF, 0xD9]).drop (e + 2)) =
      (0xFF :: 0xD8 :: p ++ [0xFF, 0xD9]).drop (e + 2) := by
    unfold capBuffer
    rw [if_neg (by omega)]
  rw [hcb]
  simp

/-- Witness for C6: extracting from `FF D8 01 02 03 FF D9` with the basic
path's 1 MB cap. -/
theorem frame_extractor_single_frame_instance :
    ([0x01, 0x02, 0x03].length + 4 ≤ 1024 * 1024) ∧
    (∃ e, findPattern 0xFF 0xD9 (0xFF :: 0xD8 :: [0x01, 0x02, 0x03] ++ [0xFF, 0xD9]) = some e ∧
      findPattern 0xFF 0xD8 (0xFF :: 0xD8 :: [0x01, 0x02, 0x03] ++ [0xFF, 0xD9]) = some 0 ∧
      (0xFF :: 0xD8 :: [0x01, 0x02, 0x03] ++ [0xFF, 0xD9]).get? e = some 0xFF ∧
      (0xFF :: 0xD8 :: [0x01, 0x02, 0x03] ++ [0xFF, 0xD9]).get? (e + 1) = some 0xD9 ∧
      extractStep (1024 * 1024) (0xFF :: 0xD8 :: [0x01, 0x02, 0x03] ++ [0xFF, 0xD9]) =
        { frame := some ((0xFF :: 0xD8 :: [0x01, 0x02, 0x03] ++ [0xFF, 0xD9]).take (e + 2))
          buffer := (0xFF :: 0xD8 :: [0x01, 0x02, 0x03] ++ [0xFF, 0xD9]).drop (e + 2) }) :=
  ⟨by decide, frame_extractor_single_frame (1024 * 1024) [0x01, 0x02, 0x03] (by decide)⟩

/-! ## Printer image preparation (PrinterController.prepareImageForPrint) -/

deriving instance DecidableEq for Except

/-- A JavaScript error value: an optional `code` (e.g. `ENOENT`, `EACCES`
on filesystem errors; absent on `new Error(msg)`) and a `message`. -/
structure JsError where
  code : Option String
  message : String
deriving Repr, DecidableEq

/-- `hay.includes(needle)` on JavaScript strings. -/
def jsIncludes (hay needle : String) : Bool :=
  hay.data.tails.any (fun t => needle.data.isPrefixOf t)

/-- The result of `sharp(imagePath).metadata()`: in JavaScript each field
may be `undefined`. -/
structure ImageMeta where
  width : Option Nat
  height : Option Nat
  format : Option String
deriving Repr, DecidableEq

/-- JavaScript truthiness test for an optional number: falsy when absent
(`undefined`) or zero. -/
def jsFalsy (o : Option Nat) : Bool := o.getD 0 == 0

/-- The arguments the printer controller passes to the sharp processing
pipeline (`.resize(...)`, `.jpeg({...})`, `.toColorspace(...)`). -/
structure ProcessSpec where
  width : Nat
  height : Nat
  fit : String
  position : String
  quality : Nat
  progressive : Bool
  mozjpeg : Bool
  chromaSubsampling : String
  forceFormat : Bool
  colorspace : String
deriving Repr, DecidableEq

/-- The literal processing arguments of `prepareImageForPrint`:
1800x1200 cover-fit centered, baseline JPEG quality 95, standard encoder,
4:4:4 chroma, forced JPEG format, sRGB colorspace. -/
def printSpec : ProcessSpec :=
  { width := 1800, height := 1200, fit := "cover", position := "center"
    quality := 95, progressive := false, mozjpeg := false
    chromaSubsampling := "4:4:4", forceFormat := true, colorspace := "srgb" }

/-- External effects the printer controller can perform. -/
inductive FsAction where
  | sharpToFile : ProcessSpec → String → FsAction
  | unlinkFile : String → FsAction
  | spoolerCommand : String → FsAction
deriving Repr, DecidableEq

/-- Filesystem/decoder responses consumed by one `prepareImageForPrint`
run: the input stat (error or size in bytes), the sharp metadata read, the
processed-file write, and the output stat. -/
structure PrepEnv where
  statResult : Except JsError Nat
  metaResult : Except JsError ImageMeta
  writeResult : Except JsError Unit
  outputStatResult : Except JsError Nat
deriving Repr

/-- `imagePath.replace(/\.jpg$/, '_print.jpg')`: the anchored pattern
replaces a trailing `.jpg` and matches nothing otherwise. -/
def replaceJpgSuffix (p : String) : String :=
  if (".jpg".data).isSuffixOf p.data
  then { data := p.data.take (p.data.length - 4) } ++ "_print.jpg"
  else p

theorem isPrefixOf_self_append (a b : List Char) : a.isPrefixOf (a ++ b) = true := by
  induction a with
  | nil => simp [List.isPrefixOf]
  | cons x xs ih => simp [List.isPrefixOf, ih]

theorem isSuffixOf_append_self (t l : List Char) : t.isSuffixOf (l ++ t) = true := by
  unfold List.isSuffixOf
  rw [List.reverse_append]
  exact isPrefixOf_self_append _ _

theorem replaceJpgSuffix_append (stem : String) :
    replaceJpgSuffix (stem ++ ".jpg") = stem ++ "_print.jpg" := by
  unfold replaceJpgSuffix
  have hd : (stem ++ ".jpg").data = stem.data ++ ".jpg".data := rfl
  rw [hd, if_pos (isSuffixOf_append_self _ _)]
  have hlen : (stem.data ++ ".jpg".data).length - 4 = stem.data.length := by
    simp
  rw [hlen]
  have htake : (stem.data ++ ".jpg".data).take stem.data.length = stem.data := by
    exact List.take_left stem.data _
  rw [htake]

/-- The supported input formats checked against `metadata.format`. -/
def supportedFormats : List String := ["jpeg", "jpg", "png", "webp", "tiff", "gif"]

/-- The catch-block translation of an inner error into the user-facing
failure message of `prepareImageForPrint`. -/
def mapPrintError (e : JsError) : String :=
  if e.code == some "ENOENT" then "Image file not found"
  else if e.code == some "EACCES" then "Permission denied accessing image file"
  else if jsIncludes e.message "Input file contains unsupported image format" then
    "Unsupported or corrupted image format"
  else "Image processing failed: " ++ e.message

/-- Outcome of one `prepareImageForPrint` run: the settled promise (output
path or final failure message) and the external actions performed, in
order. -/
structure PrepResult where
  result : Except String String
  actions : List FsAction
deriving Repr, DecidableEq

/-- Shallow embedding of `PrinterController.prepareImageForPrint`
(sharp-processing revision).  Validation failures raise before the sharp
pipeline runs; the catch block always attempts to unlink the output path
(ignoring unlink errors) and rethrows the mapped message.  No spooler
command is ever issued here. -/
def prepareImageForPrint (imagePath : String) (env : PrepEnv) : PrepResult :=
  let outputPath := replaceJpgSuffix imagePath
  let failEarly : JsError → PrepResult := fun e =>
    { result := .error (mapPrintError e), actions := [.unlinkFile outputPath] }
  let failAfterWrite : JsError → PrepResult := fun e =>
    { result := .error (mapPrintError e)
      actions := [.sharpToFile printSpec outputPath, .unlinkFile outputPath] }
  match env.statResult with
  | .error e => failEarly e
  | .ok size =>
    if size = 0 then failEarly { code := none, message := "Image file is empty" }
    else if 50 * 1024 * 1024 < size then
      failEarly { code := none, message := "Image file is too large (max 50MB)" }
    else
      match env.metaResult with
      | .error e => failEarly e
      | .ok meta =>
        if jsFalsy meta.width || jsFalsy meta.height then
          failEarly { code := none, message := "Invalid image: Unable to read image dimensions" }
        else if meta.width.getD 0 < 100 || meta.height.getD 0 < 100 then
          failEarly { code := none, message := "Image resolution too low (minimum 100x100 pixels)" }
        else if !(supportedFormats.contains (meta.format.getD "undefined")) then
          failEarly { code := none
                      message := "Unsupported image format: " ++ meta.format.getD "undefined" ++
                        ". Supported formats: " ++ String.intercalate ", " supportedFormats }
        else
          match env.writeResult with
          | .error e => failAfterWrite e
          | .ok _ =>
            match env.outputStatResult with
            | .error e => failAfterWrite e
            | .ok osize =>
              if osize = 0 then
                failAfterWrite { code := none, message := "Failed to create processed image file" }
              else
                { result := .ok outputPath, actions := [.sharpToFile printSpec outputPath] }

/-! ## Print queue (PrinterController printImage / processQueue / cancelAllJobs) -/

/-- One queued print job: a synthetic identity (standing for the job's
resolve/reject promise callbacks) and the processed image path it carries. -/
structure PrintJob where
  id : Nat
  path : String
deriving Repr, DecidableEq

/-- Printer controller queue state: the in-memory FIFO queue, the
`isPrinting` busy flag, the job whose spooler submission is currently
awaited, and the number of scheduled (not yet fired) 1-second cooldown
timers. -/
structure QState where
  queue : List PrintJob
  isPrinting : Bool
  inFlight : Option PrintJob
  pendingTimers : Nat
deriving Repr, DecidableEq

/-- The controller's constructor state: empty queue, not printing. -/
def initQState : QState :=
  { queue := [], isPrinting := false, inFlight := none, pendingTimers := 0 }

/-- Observable actions of the queue machinery.  `settle j ok` is the
invocation of job `j`'s resolve (`ok = true`) or reject callback;
`unlinkTemp p failed` is the finally-block deletion attempt of the temp
file (`failed` records whether the deletion itself errored, which the code
only logs); `schedule ms` is the `setTimeout(processQueue, ms)` cooldown;
`discard ids` records queued jobs dropped by a successful cancel-all. -/
inductive QAction where
  | submit : PrintJob → QAction
  | settle : PrintJob → Bool → QAction
  | unlinkTemp : String → Bool → QAction
  | schedule : Nat → QAction
  | cancelCmd : Bool → QAction
  | discard : List Nat → QAction
deriving Repr, DecidableEq

/-- Events driving the queue machinery: a job is enqueued (printImage after
a successful preparation), the awaited spooler submission settles
(`ok` = spooler success, `unlinkFailed` = the finally-block unlink's own
outcome), a scheduled cooldown timer fires, or `cancelAllJobs` runs with
the given external command outcome. -/
inductive QEvent where
  | enqueue : PrintJob → QEvent
  | complete : Bool → Bool → QEvent
  | timerFire : QEvent
  | cancelAll : Bool → QEvent
deriving Repr, DecidableEq

/-- The synchronous prefix of `processQueue`: no-op when a submission is in
flight or the queue is empty, otherwise dequeue the oldest job, raise the
busy flag, and start its spooler submission. -/
def runProcessQueue (s : QState) : QState × Option PrintJob :=
  if s.isPrinting then (s, none)
  else
    match s.queue with
    | [] => (s, none)
    | j :: rest =>
        ({ queue := rest, isPrinting := true, inFlight := some j
           pendingTimers := s.pendingTimers }, some j)

/-- One event step of the queue machinery, mirroring the control flow of
`printImage` (push + processQueue), the `try/catch/finally` around
`sendToPrinter`, the cooldown timer, and `cancelAllJobs`. -/
def qstep (s : QState) (e : QEvent) : QState × List QAction :=
  match e with
  | .enqueue j =>
      let s1 := { s with queue := s.queue ++ [j] }
      match runProcessQueue s1 with
      | (s2, some j1) => (s2, [.submit j1])
      | (s2, none) => (s2, [])
  | .complete ok unlinkFailed =>
      match s.inFlight with
      | none => (s, [])
      | some j =>
          let acts := [QAction.settle j ok]
            ++ (if jsIncludes j.path "_print.jpg" then [QAction.unlinkTemp j.path unlinkFailed]
                else [])
            ++ (if s.queue.isEmpty then [] else [QAction.schedule 1000])
          ({ queue := s.queue, isPrinting := false, inFlight := none
             pendingTimers := s.pendingTimers + (if s.queue.isEmpty then 0 else 1) }, acts)
  | .timerFire =>
      if s.pendingTimers = 0 then (s, [])
      else
        let s1 := { s with pendingTimers := s.pendingTimers - 1 }
        match runProcessQueue s1 with
        | (s2, some j1) => (s2, [.submit j1])
        | (s2, none) => (s2, [])
  | .cancelAll ok =>
      if ok then
        ({ s with queue := [] }, [.cancelCmd true, .discard (s.queue.map (·.id))])
      else (s, [.cancelCmd false])

/-- Run the queue machinery over a list of events, collecting actions. -/
def qrun (s : QState) : List QEvent → QState × List QAction
  | [] => (s, [])
  | e :: es =>
      let p1 := qstep s e
      let p2 := qrun p1.1 es
      (p2.1, p1.2 ++ p2.2)

/-- Shallow embedding of `PrinterController.cancelAllJobs`: on external
command failure the promise rejects and the local queue is untouched; on
success the local queue is cleared and the promise resolves with the
confirmation message. -/
def cancelAllJobs (s : QState) (cmdResult : Except JsError String) :
    QState × Except JsError String :=
  match cmdResult with
  | .error e => (s, .error e)
  | .ok _ => ({ s with queue := [] }, .ok "All print jobs cancelled")

/-- Shallow embedding of `PrinterController.printImage`: prepare the image;
on preparation failure reject immediately with the preparation message and
touch neither the queue nor the spooler; on success enqueue a job carrying
the processed path and trigger `processQueue`. -/
def printImage (imagePath : String) (env : PrepEnv) (jid : Nat) (s : QState) :
    QState × List QAction × Except String String :=
  match (prepareImageForPrint imagePath env).result with
  | .error msg => (s, [], .error msg)
  | .ok processedPath =>
      let p := qstep s (.enqueue { id := jid, path := processedPath })
      (p.1, p.2, .ok processedPath)

/-! ### Counting and pacing functions over action traces -/

/-- Number of submissions of jobs with identity `n` in an action trace. -/
def cntSub (n : Nat) : List QAction → Nat
  | [] => 0
  | .submit j :: r => (if j.id = n then 1 else 0) + cntSub n r
  | _ :: r => cntSub n r

/-- Number of settle (resolve-or-reject) invocations for jobs with
identity `n` in an action trace. -/
def cntSettle (n : Nat) : List QAction → Nat
  | [] => 0
  | .settle j _ :: r => (if j.id = n then 1 else 0) + cntSettle n r
  | _ :: r => cntSettle n r

/-- Number of unlink attempts for path `p` in an action trace. -/
def cntUnlink (p : String) : List QAction → Nat
  | [] => 0
  | .unlinkTemp q _ :: r => (if q = p then 1 else 0) + cntUnlink p r
  | _ :: r => cntUnlink p r

/-- Number of settles for jobs carrying path `p` in an action trace. -/
def cntSettlePath (p : String) : List QAction → Nat
  | [] => 0
  | .settle j _ :: r => (if j.path = p then 1 else 0) + cntSettlePath p r
  | _ :: r => cntSettlePath p r

/-- Number of occurrences of `n` in a list of identities. -/
def cntNat (n : Nat) : List Nat → Nat
  | [] => 0
  | m :: r => (if m = n then 1 else 0) + cntNat n r

/-- Number of jobs with identity `n` discarded by cancel-alls in a trace. -/
def cntDiscard (n : Nat) : List QAction → Nat
  | [] => 0
  | .discard ids :: r => cntNat n ids + cntDiscard n r
  | _ :: r => cntDiscard n r

/-- Number of enqueues of jobs with identity `n` in an event list. -/
def cntEnq (n : Nat) : List QEvent → Nat
  | [] => 0
  | .enqueue j :: r => (if j.id = n then 1 else 0) + cntEnq n r
  | _ :: r => cntEnq n r

/-- Number of jobs with identity `n` in a job list. -/
def cntIds (n : Nat) : List PrintJob → Nat
  | [] => 0
  | j :: r => (if j.id = n then 1 else 0) + cntIds n r

/-- Number of queued jobs with identity `n` in a state. -/
def cntQueue (n : Nat) (s : QState) : Nat := cntIds n s.queue

/-- 1 when the in-flight job has identity `n`, else 0. -/
def cntFlight (n : Nat) (s : QState) : Nat :=
  match s.inFlight with
  | some j => if j.id = n then 1 else 0
  | none => 0

/-- Identities of submitted jobs, in submission order. -/
def subIds : List QAction → List Nat
  | [] => []
  | .submit j :: r => j.id :: subIds r
  | _ :: r => subIds r

/-- Identities of enqueued jobs, in enqueue order. -/
def enqIds : List QEvent → List Nat
  | [] => []
  | .enqueue j :: r => j.id :: enqIds r
  | _ :: r => enqIds r

/-- Busy tracking along an action trace: a submit raises the flag, a settle
lowers it, other actions leave it. -/
def busyAfter (b : Bool) : List QAction → Bool
  | [] => b
  | .submit _ :: r => busyAfter true r
  | .settle _ _ :: r => busyAfter false r
  | _ :: r => busyAfter b r

/-- Serialization check on an action trace starting with busy flag `b`:
a submission may only occur while not busy, so between any two submissions
some job settles. -/
def paced (b : Bool) : List QAction → Bool
  | [] => true
  | .submit _ :: r => !b && paced true r
  | .settle _ _ :: r => paced false r
  | _ :: r => paced b r

/-- An event list that contains no cancel-all. -/
def noCancel : List QEvent → Bool
  | [] => true
  | .cancelAll _ :: _ => false
  | _ :: r => noCancel r

/-- The structural queue invariant: the busy flag is set exactly while a
submission is in flight. -/
def QGood (s : QState) : Prop := s.isPrinting = s.inFlight.isSome

theorem cntSub_append (n : Nat) (l1 l2 : List QAction) :
    cntSub n (l1 ++ l2) = cntSub n l1 + cntSub n l2 := by
  induction l1 with
  | nil => simp [cntSub]
  | cons a r ih => cases a <;> simp [cntSub, ih] <;> omega

theorem cntSettle_append (n : Nat) (l1 l2 : List QAction) :
    cntSettle n (l1 ++ l2) = cntSettle n l1 + cntSettle n l2 := by
  induction l1 with
  | nil => simp [cntSettle]
  | cons a r ih => cases a <;> simp [cntSettle, ih] <;> omega

theorem cntUnlink_append (p : String) (l1 l2 : List QAction) :
    cntUnlink p (l1 ++ l2) = cntUnlink p l1 + cntUnlink p l2 := by
  induction l1 with
  | nil => simp [cntUnlink]
  | cons a r ih => cases a <;> simp [cntUnlink, ih] <;> omega

theorem cntSettlePath_append (p : String) (l1 l2 : List QAction) :
    cntSettlePath p (l1 ++ l2) = cntSettlePath p l1 + cntSettlePath p l2 := by
  induction l1 with
  | nil => simp [cntSettlePath]
  | cons a r ih => cases a <;> simp [cntSettlePath, ih] <;> omega

theorem cntDiscard_append (n : Nat) (l1 l2 : List QAction) :
    cntDiscard n (l1 ++ l2) = cntDiscard n l1 + cntDiscard n l2 := by
  induction l1 with
  | nil => simp [cntDiscard]
  | cons a r ih => cases a <;> simp [cntDiscard, ih] <;> omega

theorem cntEnq_append (n : Nat) (l1 l2 : List QEvent) :
    cntEnq n (l1 ++ l2) = cntEnq n l1 + cntEnq n l2 := by
  induction l1 with
  | nil => simp [cntEnq]
  | cons a r ih => cases a <;> simp [cntEnq, ih] <;> omega

theorem subIds_append (l1 l2 : List QAction) :
    subIds (l1 ++ l2) = subIds l1 ++ subIds l2 := by
  induction l1 with
  | nil => simp [subIds]
  | cons a r ih => cases a <;> simp [subIds, ih]

theorem busyAfter_append (b : Bool) (l1 l2 : List QAction) :
    busyAfter b (l1 ++ l2) = busyAfter (busyAfter b l1) l2 := by
  induction l1 generalizing b with
  | nil => simp [busyAfter]
  | cons a r ih => cases a <;> simp [busyAfter, ih]

theorem paced_append (b : Bool) (l1 l2 : List QAction) :
    paced b (l1 ++ l2) = (paced b l1 && paced (busyAfter b l1) l2) := by
  induction l1 generalizing b with
  | nil => simp [paced, busyAfter]
  | cons a r ih => cases a <;> simp [paced, busyAfter, ih] <;> cases b <;> simp

theorem qrun_append (s : QState) (l1 l2 : List QEvent) :
    qrun s (l1 ++ l2) =
      ((qrun (qrun s l1).1 l2).1, (qrun s l1).2 ++ (qrun (qrun s l1).1 l2).2) := by
  induction l1 generalizing s with
  | nil => simp [qrun]
  | cons e r ih => simp [qrun, ih]

theorem qstep_good_paced (s : QState) (e : QEvent) (h : QGood s) :
    QGood (qstep s e).1 ∧ paced s.isPrinting (qstep s e).2 = true ∧
      busyAfter s.isPrinting (qstep s e).2 = (qstep s e).1.isPrinting := by
  cases e with
  | enqueue j =>
    unfold qstep runProcessQueue
    by_cases hb : s.isPrinting = true
    · simp only [hb, if_true]
      exact ⟨hb ▸ h, by simp [paced], by simp [busyAfter, hb]⟩
    · have hb' : s.isPrinting = false := by revert hb; cases s.isPrinting <;> simp
      simp only [hb', if_false, Bool.false_eq_true]
      cases hq : s.queue ++ [j] with
      | nil => simp at hq
      | cons j1 rest =>
        simp only [hq]
        exact ⟨by simp [QGood], by simp [paced, hb'], by simp [busyAfter, hb']⟩
  | complete ok uf =>
    unfold qstep
    cases hf : s.inFlight with
    | none => exact ⟨h, by simp [paced], by simp [busyAfter, h, hf]⟩
    | some j =>
      refine ⟨by simp [QGood], ?_, ?_⟩ <;>
        by_cases h1 : jsIncludes j.path "_print.jpg" = true <;>
          by_cases h2 : s.queue.isEmpty = true <;>
            simp [h1, h2, paced, busyAfter]
  | timerFire =>
    unfold qstep runProcessQueue
    by_cases ht : s.pendingTimers = 0
    · simp only [ht, if_true]
      exact ⟨h, by simp [paced], by simp [busyAfter]⟩
    · simp only [ht, if_false]
      by_cases hb : s.isPrinting = true
      · simp only [hb, if_true]
        exact ⟨hb ▸ h, by simp [paced], by simp [busyAfter, hb]⟩
      · have hb' : s.isPrinting = false := by revert hb; cases s.isPrinting <;> simp
        simp only [hb', if_false, Bool.false_eq_true]
        cases hq : s.queue with
        | nil => exact ⟨hb' ▸ h, by simp [paced], by simp [busyAfter, hb']⟩
        | cons j1 rest =>
          exact ⟨by simp [QGood], by simp [paced, hb'], by simp [busyAfter, hb']⟩
  | cancelAll ok =>
    unfold qstep
    by_cases hk : ok = true
    · simp only [hk, if_true]
      exact ⟨h, by simp [paced], by simp [busyAfter]⟩
    · have hk' : ok = false := by revert hk; cases ok <;> simp
      simp only [hk', if_false, Bool.false_eq_true]
      exact ⟨h, by simp [paced], by simp [busyAfter]⟩

theorem qrun_good_paced (evs : List QEvent) :
    ∀ s : QState, QGood s →
      QGood (qrun s evs).1 ∧ paced s.isPrinting (qrun s evs).2 = true ∧
        busyAfter s.isPrinting (qrun s evs).2 = (qrun s evs).1.isPrinting := by
  induction evs with
  | nil => intro s h; exact ⟨h, rfl, rfl⟩
  | cons e es ih =>
    intro s h
    obtain ⟨g1, p1, b1⟩ := qstep_good_paced s e h
    obtain ⟨g2, p2, b2⟩ := ih (qstep s e).1 g1
    have hrun : qrun s (e :: es) =
        ((qrun (qstep s e).1 es).1, (qstep s e).2 ++ (qrun (qstep s e).1 es).2) := by
      simp [qrun]
    rw [hrun]
    refine ⟨g2, ?_, ?_⟩
    · rw [paced_append, p1, b1, p2]
      rfl
    · rw [busyAfter_append, b1, b2]

theorem cntIds_append (n : Nat) (l1 l2 : List PrintJob) :
    cntIds n (l1 ++ l2) = cntIds n l1 + cntIds n l2 := by
  induction l1 with
  | nil => simp [cntIds]
  | cons j r ih => simp [cntIds, ih]; omega

theorem cntNat_map_id (n : Nat) (l : List PrintJob) :
    cntNat n (l.map (·.id)) = cntIds n l := by
  induction l with
  | nil => simp [cntNat, cntIds]
  | cons j r ih => simp [cntNat, cntIds, ih]

theorem inFlight_none_of_not_printing (s : QState) (h : QGood s)
    (hb : s.isPrinting = false) : s.inFlight = none := by
  unfold QGood at h
  rw [hb] at h
  cases hf : s.inFlight with
  | none => rfl
  | some j => rw [hf] at h; simp at h

theorem qstep_counts (n : Nat) (s : QState) (e : QEvent) (h : QGood s) :
    cntFlight n s + cntSub n (qstep s e).2 = cntSettle n (qstep s e).2 + cntFlight n (qstep s e).1
  ∧ cntQueue n s + cntEnq n [e] =
      cntSub n (qstep s e).2 + cntDiscard n (qstep s e).2 + cntQueue n (qstep s e).1 := by
  cases e with
  | enqueue j =>
    unfold qstep runProcessQueue
    by_cases hb : s.isPrinting = true
    · simp only [hb, if_true]
      constructor
      · simp [cntSub, cntSettle, cntFlight]
      · simp [cntQueue, cntEnq, cntSub, cntDiscard, cntIds_append, cntIds]
    · have hb' : s.isPrinting = false := by revert hb; cases s.isPrinting <;> simp
      have hf : s.inFlight = none := inFlight_none_of_not_printing s h hb'
      simp only [hb', if_false, Bool.false_eq_true]
      cases hq : s.queue ++ [j] with
      | nil => simp at hq
      | cons j1 rest =>
        simp only [hq]
        have hcnt : cntIds n (s.queue ++ [j]) = cntIds n (j1 :: rest) := by rw [hq]
        rw [cntIds_append] at hcnt
        constructor
        · simp [cntSub, cntSettle, cntFlight, hf]
        · simp only [cntIds] at hcnt
          simp [cntQueue, cntEnq, cntSub, cntDiscard, cntIds]
          omega
  | complete ok uf =>
    unfold qstep
    cases hf : s.inFlight with
    | none =>
      constructor
      · simp [cntSub, cntSettle, cntFlight, hf]
      · simp [cntQueue, cntEnq, cntSub, cntDiscard]
    | some j =>
      by_cases h1 : jsIncludes j.path "_print.jpg" = true <;>
        by_cases h2 : s.queue.isEmpty = true <;>
          constructor <;>
            simp [h1, h2, cntSub, cntSettle, cntFlight, cntQueue, cntEnq, cntDiscard, hf]
  | timerFire =>
    unfold qstep runProcessQueue
    by_cases ht : s.pendingTimers = 0
    · simp only [ht, if_true]
      constructor
      · simp [cntSub, cntSettle, cntFlight]
      · simp [cntQueue, cntEnq, cntSub, cntDiscard]
    · simp only [ht, if_false]
      by_cases hb : s.isPrinting = true
      · simp only [hb, if_true]
        constructor
        · simp [cntSub, cntSettle, cntFlight]
        · simp [cntQueue, cntEnq, cntSub, cntDiscard]
      · have hb' : s.isPrinting = false := by revert hb; cases s.isPrinting <;> simp
        have hf : s.inFlight = none := inFlight_none_of_not_printing s h hb'
        simp only [hb', if_false, Bool.false_eq_true]
        cases hq : s.queue with
        | nil =>
          constructor
          · simp [cntSub, cntSettle, cntFlight]
          · simp [cntQueue, cntEnq, cntSub, cntDiscard, hq]
        | cons j1 rest =>
          constructor
          · simp [cntSub, cntSettle, cntFlight, hf]
          · simp [cntQueue, cntEnq, cntSub, cntDiscard, hq, cntIds]
  | cancelAll ok =>
    unfold qstep
    by_cases hk : ok = true
    · simp only [hk, if_true]
      constructor
      · simp [cntSub, cntSettle, cntFlight]
      · simp [cntQueue, cntEnq, cntSub, cntDiscard, cntNat_map_id, cntIds]
    · have hk' : ok = false := by revert hk; cases ok <;> simp
      simp only [hk', if_false, Bool.false_eq_true]
      constructor
      · simp [cntSub, cntSettle, cntFlight]
      · simp [cntQueue, cntEnq, cntSub, cntDiscard]

theorem qrun_counts (n : Nat) (evs : List QEvent) :
    ∀ s : QState, QGood s →
      cntFlight n s + cntSub n (qrun s evs).2 =
          cntSettle n (qrun s evs).2 + cntFlight n (qrun s evs).1
    ∧ cntQueue n s + cntEnq n evs =
          cntSub n (qrun s evs).2 + cntDiscard n (qrun s evs).2 + cntQueue n (qrun s evs).1 := by
  induction evs with
  | nil => intro s h; constructor <;> simp [qrun, cntSub, cntSettle, cntDiscard, cntEnq]
  | cons e es ih =>
    intro s h
    obtain ⟨a1, b1⟩ := qstep_counts n s e h
    have g1 : QGood (qstep s e).1 := (qstep_good_paced s e h).1
    obtain ⟨a2, b2⟩ := ih (qstep s e).1 g1
    have hrun : qrun s (e :: es) =
        ((qrun (qstep s e).1 es).1, (qstep s e).2 ++ (qrun (qstep s e).1 es).2) := by
      simp [qrun]
    rw [hrun]
    have henq : cntEnq n (e :: es) = cntEnq n [e] + cntEnq n es := by
      cases e <;> simp [cntEnq] <;> omega
    constructor
    · simp only [cntSub_append, cntSettle_append]
      omega
    · simp only [cntSub_append, cntDiscard_append, henq]
      omega

theorem qstep_unlink_settle (p : String) (hp : jsIncludes p "_print.jpg" = true)
    (s : QState) (e : QEvent) :
    cntUnlink p (qstep s e).2 = cntSettlePath p (qstep s e).2 := by
  cases e with
  | enqueue j =>
    unfold qstep runProcessQueue
    by_cases hb : s.isPrinting = true
    · simp [hb, cntUnlink, cntSettlePath]
    · have hb' : s.isPrinting = false := by revert hb; cases s.isPrinting <;> simp
      simp only [hb', if_false, Bool.false_eq_true]
      cases hq : s.queue ++ [j] with
      | nil => simp at hq
      | cons j1 rest => simp [cntUnlink, cntSettlePath]
  | complete ok uf =>
    unfold qstep
    cases hf : s.inFlight with
    | none => simp [cntUnlink, cntSettlePath]
    | some j =>
      by_cases hjp : j.path = p
      · subst hjp
        by_cases h2 : s.queue.isEmpty = true <;>
          simp [hp, h2, cntUnlink, cntSettlePath]
      · by_cases h1 : jsIncludes j.path "_print.jpg" = true <;>
          by_cases h2 : s.queue.isEmpty = true <;>
            simp [h1, h2, cntUnlink, cntSettlePath, hjp]
  | timerFire =>
    unfold qstep runProcessQueue
    by_cases ht : s.pendingTimers = 0
    · simp [ht, cntUnlink, cntSettlePath]
    · simp only [ht, if_false]
      by_cases hb : s.isPrinting = true
      · simp [hb, cntUnlink, cntSettlePath]
      · have hb' : s.isPrinting = false := by revert hb; cases s.isPrinting <;> simp
        simp only [hb', if_false, Bool.false_eq_true]
        cases hq : s.queue with
        | nil => simp [cntUnlink, cntSettlePath]
        | cons j1 rest => simp [cntUnlink, cntSettlePath]
  | cancelAll ok =>
    unfold qstep
    by_cases hk : ok = true <;>
      [skip; have hk' : ok = false := by revert hk; cases ok <;> simp] <;>
      simp [hk, cntUnlink, cntSettlePath]

theorem qrun_unlink_settle (p : String) (hp : jsIncludes p "_print.jpg" = true)
    (evs : List QEvent) :
    ∀ s : QState, cntUnlink p (qrun s evs).2 = cntSettlePath p (qrun s evs).2 := by
  induction evs with
  | nil => intro s; simp [qrun, cntUnlink, cntSettlePath]
  | cons e es ih =>
    intro s
    have hrun : qrun s (e :: es) =
        ((qrun (qstep s e).1 es).1, (qstep s e).2 ++ (qrun (qstep s e).1 es).2) := by
      simp [qrun]
    rw [hrun]
    simp only [cntUnlink_append, cntSettlePath_append]
    rw [qstep_unlink_settle p hp s e, ih (qstep s e).1]

theorem qstep_fifo (s : QState) (e : QEvent) (hnc : ∀ b, e ≠ .cancelAll b) :
    subIds (qstep s e).2 ++ (qstep s e).1.queue.map (·.id) =
      s.queue.map (·.id) ++ enqIds [e] := by
  cases e with
  | enqueue j =>
    unfold qstep runProcessQueue
    by_cases hb : s.isPrinting = true
    · simp [hb, subIds, enqIds]
    · have hb' : s.isPrinting = false := by revert hb; cases s.isPrinting <;> simp
      simp only [hb', if_false, Bool.false_eq_true]
      cases hq : s.queue ++ [j] with
      | nil => simp at hq
      | cons j1 rest =>
        simp only [subIds, enqIds]
        have : (s.queue ++ [j]).map (·.id) = (j1 :: rest).map (·.id) := by rw [hq]
        simp only [List.map_append, List.map_cons, List.map_nil] at this
        simp [← this]
  | complete ok uf =>
    unfold qstep
    cases hf : s.inFlight with
    | none => simp [subIds, enqIds]
    | some j =>
      by_cases h1 : jsIncludes j.path "_print.jpg" = true <;>
        by_cases h2 : s.queue.isEmpty = true <;>
          simp [h1, h2, subIds, enqIds]
  | timerFire =>
    unfold qstep runProcessQueue
    by_cases ht : s.pendingTimers = 0
    · simp [ht, subIds, enqIds]
    · simp only [ht, if_false]
      by_cases hb : s.isPrinting = true
      · simp [hb, subIds, enqIds]
      · have hb' : s.isPrinting = false := by revert hb; cases s.isPrinting <;> simp
        simp only [hb', if_false, Bool.false_eq_true]
        cases hq : s.queue with
        | nil => simp [hq, subIds, enqIds]
        | cons j1 rest => simp [hq, subIds, enqIds]
  | cancelAll b => exact absurd rfl (hnc b)

theorem qrun_fifo (evs : List QEvent) :
    ∀ s : QState, noCancel evs = true →
      subIds (qrun s evs).2 ++ (qrun s evs).1.queue.map (·.id) =
        s.queue.map (·.id) ++ enqIds evs := by
  induction evs with
  | nil => intro s _; simp [qrun, subIds, enqIds]
  | cons e es ih =>
    intro s hnc
    have hnc1 : ∀ b, e ≠ QEvent.cancelAll b := by
      intro b hbe
      rw [hbe] at hnc
      simp [noCancel] at hnc
    have hnc2 : noCancel es = true := by
      revert hnc
      cases e <;> simp [noCancel]
    have hrun : qrun s (e :: es) =
        ((qrun (qstep s e).1 es).1, (qstep s e).2 ++ (qrun (qstep s e).1 es).2) := by
      simp [qrun]
    rw [hrun]
    have henq : enqIds (e :: es) = enqIds [e] ++ enqIds es := by
      cases e <;> simp [enqIds]
    rw [henq, subIds_append, List.append_assoc, ih (qstep s e).1 hnc2, ← List.append_assoc,
      qstep_fifo s e hnc1, List.append_assoc]

theorem qrun_cons (s : QState) (e : QEvent) (es : List QEvent) :
    qrun s (e :: es) =
      ((qrun (qstep s e).1 es).1, (qstep s e).2 ++ (qrun (qstep s e).1 es).2) := by
  simp [qrun]

theorem qgood_init : QGood initQState := rfl

/-- C4: the print queue is strictly FIFO with at most one spooler
submission in flight: `processQueue` is a no-op while `isPrinting` or on an
empty queue and otherwise dequeues the oldest job; over any cancel-free
event sequence the submission order is exactly the enqueue order; a
submission never starts while another is in flight (between two
submissions the earlier job settles); a job completion with jobs
remaining schedules the fixed 1-second cooldown in the same step and
starts no submission itself; and `isPrinting` is false whenever nothing is
in flight (in particular once the queue drains). -/
theorem print_queue_fifo_serialized :
    (∀ s : QState, s.isPrinting = true ∨ s.queue = [] → runProcessQueue s = (s, none))
  ∧ (∀ (s : QState) (j : PrintJob) (rest : List PrintJob),
      s.isPrinting = false → s.queue = j :: rest →
        runProcessQueue s =
          ({ queue := rest, isPrinting := true, inFlight := some j
             pendingTimers := s.pendingTimers }, some j))
  ∧ (∀ evs : List QEvent, noCancel evs = true →
      subIds (qrun initQState evs).2 ++ (qrun initQState evs).1.queue.map (·.id) = enqIds evs)
  ∧ (∀ evs : List QEvent, paced false (qrun initQState evs).2 = true)
  ∧ (∀ (s : QState) (j : PrintJob) (ok uf : Bool), s.inFlight = some j → s.queue ≠ [] →
      (qstep s (.complete ok uf)).2 =
        [QAction.settle j ok]
          ++ (if jsIncludes j.path "_print.jpg" then [QAction.unlinkTemp j.path uf] else [])
          ++ [QAction.schedule 1000]
      ∧ subIds (qstep s (.complete ok uf)).2 = [])
  ∧ (∀ evs : List QEvent, (qrun initQState evs).1.inFlight = none →
      (qrun initQState evs).1.isPrinting = false) := by
  refine ⟨?_, ?_, ?_, ?_, ?_, ?_⟩
  · intro s h
    rcases h with hb | hq
    · unfold runProcessQueue
      rw [if_pos hb]
    · unfold runProcessQueue
      rw [hq]
      split <;> rfl
  · intro s j rest hb hq
    simp [runProcessQueue, hb, hq]
  · intro evs h
    have := qrun_fifo evs initQState h
    simpa [initQState] using this
  · intro evs
    exact (qrun_good_paced evs initQState qgood_init).2.1
  · intro s j ok uf hf hq
    have h2 : s.queue.isEmpty = false := by
      rcases hqq : s.queue with _ | ⟨a, b⟩
      · exact absurd hqq hq
      · simp
    constructor
    · simp [qstep, hf, h2]
    · by_cases h1 : jsIncludes j.path "_print.jpg" = true <;> simp [qstep, hf, h2, h1, subIds]
  · intro evs h
    have hg := (qrun_good_paced evs initQState qgood_init).1
    unfold QGood at hg
    rw [h] at hg
    simpa using hg

/-- Witness for C4: a three-job trace with successes and one failure, with
each cooldown timer firing between completions, submits the jobs strictly
in order, alternates submissions and settles, and drains. -/
theorem print_queue_fifo_serialized_instance :
    (runProcessQueue { queue := [], isPrinting := true, inFlight := none, pendingTimers := 0 } =
      ({ queue := [], isPrinting := true, inFlight := none, pendingTimers := 0 }, none))
  ∧ (runProcessQueue
        { queue := [{ id := 1, path := "a_print.jpg" }], isPrinting := false
          inFlight := none, pendingTimers := 0 } =
      ({ queue := [], isPrinting := true, inFlight := some { id := 1, path := "a_print.jpg" }
         pendingTimers := 0 }, some { id := 1, path := "a_print.jpg" }))
  ∧ (noCancel
        [QEvent.enqueue { id := 1, path := "a_print.jpg" },
         QEvent.enqueue { id := 2, path := "b_print.jpg" },
         QEvent.enqueue { id := 3, path := "c_print.jpg" },
         QEvent.complete true false, QEvent.timerFire,
         QEvent.complete false false, QEvent.timerFire,
         QEvent.complete true false] = true)
  ∧ (subIds (qrun initQState
        [QEvent.enqueue { id := 1, path := "a_print.jpg" },
         QEvent.enqueue { id := 2, path := "b_print.jpg" },
         QEvent.enqueue { id := 3, path := "c_print.jpg" },
         QEvent.complete true false, QEvent.timerFire,
         QEvent.complete false false, QEvent.timerFire,
         QEvent.complete true false]).2 ++
      (qrun initQState
        [QEvent.enqueue { id := 1, path := "a_print.jpg" },
         QEvent.enqueue { id := 2, path := "b_print.jpg" },
         QEvent.enqueue { id := 3, path := "c_print.jpg" },
         QEvent.complete true false, QEvent.timerFire,
         QEvent.complete false false, QEvent.timerFire,
         QEvent.complete true false]).1.queue.map (·.id) =
      enqIds
        [QEvent.enqueue { id := 1, path := "a_print.jpg" },
         QEvent.enqueue { id := 2, path := "b_print.jpg" },
         QEvent.enqueue { id := 3, path := "c_print.jpg" },
         QEvent.complete true false, QEvent.timerFire,
         QEvent.complete false false, QEvent.timerFire,
         QEvent.complete true false])
  ∧ (paced false (qrun initQState
        [QEvent.enqueue { id := 1, path := "a_print.jpg" },
         QEvent.enqueue { id := 2, path := "b_print.jpg" },
         QEvent.enqueue { id := 3, path := "c_print.jpg" },
         QEvent.complete true false, QEvent.timerFire,
         QEvent.complete false false, QEvent.timerFire,
         QEvent.complete true false]).2 = true)
  ∧ ((qstep { queue := [{ id := 2, path := "b_print.jpg" }], isPrinting := true
              inFlight := some { id := 1, path := "a_print.jpg" }, pendingTimers := 0 }
        (.complete true false)).2 =
      [QAction.settle { id := 1, path := "a_print.jpg" } true]
        ++ (if jsIncludes "a_print.jpg" "_print.jpg"
            then [QAction.unlinkTemp "a_print.jpg" false] else [])
        ++ [QAction.schedule 1000]) := by
  refine ⟨?_, ?_, by decide, ?_, ?_, ?_⟩
  · exact print_queue_fifo_serialized.1 _ (Or.inl rfl)
  · exact print_queue_fifo_serialized.2.1 _ _ _ rfl rfl
  · exact print_queue_fifo_serialized.2.2.1 _ (by decide)
  · exact print_queue_fifo_serialized.2.2.2.1 _
  · exact (print_queue_fifo_serialized.2.2.2.2.1 _ _ true false rfl (by decide)).1

/-- C5: whenever a queued job's spooler submission settles (success or
failure), the finally block deletes the job's `_print.jpg` temporary file
exactly once, after the job's outcome has been delivered, and the
deletion's own outcome affects neither the delivered outcome nor the
resulting controller state; over any run, deletions for a `_print.jpg`
path happen exactly once per settled job carrying that path. -/
theorem print_temp_cleanup :
    (∀ (s : QState) (j : PrintJob) (ok uf : Bool),
      s.inFlight = some j → jsIncludes j.path "_print.jpg" = true →
        (qstep s (.complete ok uf)).2 =
          [QAction.settle j ok, QAction.unlinkTemp j.path uf]
            ++ (if s.queue.isEmpty then [] else [QAction.schedule 1000])
      ∧ cntUnlink j.path (qstep s (.complete ok uf)).2 = 1
      ∧ (qstep s (.complete ok true)).1 = (qstep s (.complete ok false)).1)
  ∧ (∀ p : String, jsIncludes p "_print.jpg" = true →
      ∀ (evs : List QEvent) (s : QState),
        cntUnlink p (qrun s evs).2 = cntSettlePath p (qrun s evs).2) := by
  constructor
  · intro s j ok uf hf hp
    refine ⟨?_, ?_, ?_⟩
    · by_cases h2 : s.queue.isEmpty = true <;> simp [qstep, hf, hp, h2]
    · by_cases h2 : s.queue.isEmpty = true <;> simp [qstep, hf, hp, h2, cntUnlink]
    · simp [qstep, hf]
  · intro p hp evs s
    exact qrun_unlink_settle p hp evs s

/-- Witness for C5: a completing job with path `photo_1_print.jpg` is
settled then unlinked exactly once, independently of the unlink outcome,
and a two-job trace has one unlink per settle of that path. -/
theorem print_temp_cleanup_instance :
    ((qstep { queue := [], isPrinting := true
              inFlight := some { id := 1, path := "photo_1_print.jpg" }, pendingTimers := 0 }
        (.complete true true)).2 =
      [QAction.settle { id := 1, path := "photo_1_print.jpg" } true,
       QAction.unlinkTemp "photo_1_print.jpg" true] ++ [])
  ∧ (cntUnlink "photo_1_print.jpg"
      (qstep { queue := [], isPrinting := true
               inFlight := some { id := 1, path := "photo_1_print.jpg" }, pendingTimers := 0 }
        (.complete true true)).2 = 1)
  ∧ (cntUnlink "photo_1_print.jpg"
      (qrun initQState
        [QEvent.enqueue { id := 1, path := "photo_1_print.jpg" },
         QEvent.complete false false,
         QEvent.enqueue { id := 2, path := "photo_1_print.jpg" },
         QEvent.complete true false]).2 =
     cntSettlePath "photo_1_print.jpg"
      (qrun initQState
        [QEvent.enqueue { id := 1, path := "photo_1_print.jpg" },
         QEvent.complete false false,
         QEvent.enqueue { id := 2, path := "photo_1_print.jpg" },
         QEvent.complete true false]).2) := by
  refine ⟨?_, ?_, ?_⟩
  · have h := (print_temp_cleanup.1
      { queue := [], isPrinting := true
        inFlight := some { id := 1, path := "photo_1_print.jpg" }, pendingTimers := 0 }
      { id := 1, path := "photo_1_print.jpg" } true true rfl (by decide)).1
    simpa using h
  · exact (print_temp_cleanup.1
      { queue := [], isPrinting := true
        inFlight := some { id := 1, path := "photo_1_print.jpg" }, pendingTimers := 0 }
      { id := 1, path := "photo_1_print.jpg" } true true rfl (by decide)).2.1
  · exact print_temp_cleanup.2 "photo_1_print.jpg" (by decide) _ initQState

/-- C8: `cancelAllJobs` leaves the local queue untouched and rejects when
the external cancel command fails, clears it when the command succeeds,
and clearing never settles pending jobs: a job enqueued exactly once and
still queued when a successful cancel-all runs is never resolved or
rejected anywhere in the whole run. -/
theorem cancel_all_jobs_isolation :
    (∀ (s : QState) (e : JsError), cancelAllJobs s (.error e) = (s, .error e))
  ∧ (∀ (s : QState) (out : String),
      cancelAllJobs s (.ok out) = ({ s with queue := [] }, .ok "All print jobs cancelled"))
  ∧ (∀ (evs1 evs2 : List QEvent) (jid : Nat),
      cntEnq jid (evs1 ++ QEvent.cancelAll true :: evs2) = 1 →
      0 < cntQueue jid (qrun initQState evs1).1 →
      cntSettle jid (qrun initQState (evs1 ++ QEvent.cancelAll true :: evs2)).2 = 0) := by
  refine ⟨fun s e => rfl, fun s out => rfl, ?_⟩
  intro evs1 evs2 jid huniq hin
  obtain ⟨a1, b1⟩ := qrun_counts jid evs1 initQState qgood_init
  have hg1 : QGood (qrun initQState evs1).1 := (qrun_good_paced evs1 initQState qgood_init).1
  have hzf : cntFlight jid initQState = 0 := rfl
  have hzq : cntQueue jid initQState = 0 := rfl
  rw [hzf] at a1
  rw [hzq] at b1
  have henq : cntEnq jid (evs1 ++ QEvent.cancelAll true :: evs2) =
      cntEnq jid evs1 + cntEnq jid evs2 := by
    rw [cntEnq_append]
    simp [cntEnq]
  rw [henq] at huniq
  have hq1 : cntQueue jid (qrun initQState evs1).1 = 1 ∧
      cntSub jid (qrun initQState evs1).2 = 0 ∧
      cntDiscard jid (qrun initQState evs1).2 = 0 ∧
      cntEnq jid evs1 = 1 ∧ cntEnq jid evs2 = 0 := by omega
  have hsettle1 : cntSettle jid (qrun initQState evs1).2 = 0 ∧
      cntFlight jid (qrun initQState evs1).1 = 0 := by omega
  have hstep : qstep (qrun initQState evs1).1 (QEvent.cancelAll true) =
      ({ (qrun initQState evs1).1 with queue := [] },
       [QAction.cancelCmd true, QAction.discard ((qrun initQState evs1).1.queue.map (·.id))]) := by
    simp [qstep]
  have hg2 : QGood { (qrun initQState evs1).1 with queue := [] } := hg1
  have hflight2 : cntFlight jid { (qrun initQState evs1).1 with queue := [] } = 0 := by
    have := hsettle1.2
    unfold cntFlight at this ⊢
    exact this
  obtain ⟨a2, b2⟩ := qrun_counts jid evs2 { (qrun initQState evs1).1 with queue := [] } hg2
  rw [hflight2] at a2
  have hq2 : cntQueue jid { (qrun initQState evs1).1 with queue := [] } = 0 := by
    simp [cntQueue, cntIds]
  rw [hq2, hq1.2.2.2.2] at b2
  have hsettle3 : cntSettle jid
      (qrun { (qrun initQState evs1).1 with queue := [] } evs2).2 = 0 := by omega
  rw [qrun_append, qrun_cons]
  simp only [cntSettle_append]
  rw [hstep]
  simp only [hsettle1.1, cntSettle]
  rw [hsettle3]

/-- Witness for C8: job 8 is enqueued behind an in-flight job 7 and is
still queued when a successful cancel-all runs; job 8 is never settled in
the whole run, including later activity. -/
theorem cancel_all_jobs_isolation_instance :
    (cancelAllJobs { queue := [{ id := 7, path := "x_print.jpg" }], isPrinting := false
                     inFlight := none, pendingTimers := 0 }
        (.error { code := none, message := "cancel failed" }) =
      ({ queue := [{ id := 7, path := "x_print.jpg" }], isPrinting := false
         inFlight := none, pendingTimers := 0 },
       .error { code := none, message := "cancel failed" }))
  ∧ (cancelAllJobs { queue := [{ id := 7, path := "x_print.jpg" }], isPrinting := false
                     inFlight := none, pendingTimers := 0 } (.ok "") =
      ({ queue := [], isPrinting := false, inFlight := none, pendingTimers := 0 },
       .ok "All print jobs cancelled"))
  ∧ (cntSettle 8
      (qrun initQState
        ([QEvent.enqueue { id := 7, path := "x_print.jpg" },
          QEvent.enqueue { id := 8, path := "y_print.jpg" },
          QEvent.complete true false] ++ QEvent.cancelAll true ::
         [QEvent.timerFire, QEvent.enqueue { id := 9, path := "z_print.jpg" },
          QEvent.complete true false])).2 = 0) := by
  refine ⟨?_, ?_, ?_⟩
  · exact cancel_all_jobs_isolation.1 _ _
  · exact cancel_all_jobs_isolation.2.1 _ _
  · exact cancel_all_jobs_isolation.2.2
      [QEvent.enqueue { id := 7, path := "x_print.jpg" },
       QEvent.enqueue { id := 8, path := "y_print.jpg" },
       QEvent.complete true false]
      [QEvent.timerFire, QEvent.enqueue { id := 9, path := "z_print.jpg" },
       QEvent.complete true false]
      8 (by decide) (by decide)

theorem prepareImageForPrint_actions (imagePath : String) (env : PrepEnv) :
    (prepareImageForPrint imagePath env).actions = [.unlinkFile (replaceJpgSuffix imagePath)]
  ∨ (prepareImageForPrint imagePath env).actions =
      [.sharpToFile printSpec (replaceJpgSuffix imagePath),
       .unlinkFile (replaceJpgSuffix imagePath)]
  ∨ (prepareImageForPrint imagePath env).actions =
      [.sharpToFile printSpec (replaceJpgSuffix imagePath)] := by
  unfold prepareImageForPrint
  repeat' split
  all_goals simp

theorem prepareImageForPrint_error_unlink (imagePath : String) (env : PrepEnv) (msg : String)
    (h : (prepareImageForPrint imagePath env).result = .error msg) :
    FsAction.unlinkFile (replaceJpgSuffix imagePath) ∈ (prepareImageForPrint imagePath env).actions := by
  revert h
  unfold prepareImageForPrint
  repeat' split
  all_goals intro h
  all_goals simp_all

/-- C2: for a readable, non-empty, at most 50 MB input with both decoded
dimensions at least 100 and a supported format, whose path ends in `.jpg`,
`prepareImageForPrint` succeeds with output path
`<input-minus-.jpg>_print.jpg` and performs exactly one sharp encode to
that path with the arguments 1800x1200, cover-fit centered, JPEG quality
95, non-progressive, standard encoder, 4:4:4 chroma, forced JPEG format,
sRGB colorspace. -/
theorem prepare_image_valid_output (stem : String) (env : PrepEnv)
    (n w hgt m : Nat) (fmt : String)
    (hstat : env.statResult = .ok n) (hn0 : n ≠ 0) (hn50 : n ≤ 50 * 1024 * 1024)
    (hmeta : env.metaResult = .ok { width := some w, height := some hgt, format := some fmt })
    (hw : 100 ≤ w) (hh : 100 ≤ hgt) (hfmt : fmt ∈ supportedFormats)
    (hwrite : env.writeResult = .ok ()) (hostat : env.outputStatResult = .ok m) (hm : m ≠ 0) :
    prepareImageForPrint (stem ++ ".jpg") env =
      { result := .ok (stem ++ "_print.jpg")
        actions := [.sharpToFile
          { width := 1800, height := 1200, fit := "cover", position := "center"
            quality := 95, progressive := false, mozjpeg := false
            chromaSubsampling := "4:4:4", forceFormat := true, colorspace := "srgb" }
          (stem ++ "_print.jpg")] } := by
  have hw0 : w ≠ 0 := by omega
  have hh0 : hgt ≠ 0 := by omega
  have hwlt : ¬ w < 100 := by omega
  have hhlt : ¬ hgt < 100 := by omega
  have hbig : ¬ 50 * 1024 * 1024 < n := by omega
  unfold prepareImageForPrint
  rw [hstat, hmeta, hwrite, hostat, replaceJpgSuffix_append]
  simp [hn0, hbig, jsFalsy, hw0, hh0, hwlt, hhlt, hfmt, hm, printSpec]

/-- Witness for C2 on a fully valid concrete environment and the path
`photo_1.jpg`. -/
theorem prepare_image_valid_output_instance :
    prepareImageForPrint ("photo_1" ++ ".jpg")
      { statResult := .ok 123456
        metaResult := .ok { width := some 1920, height := some 1080, format := some "jpeg" }
        writeResult := .ok ()
        outputStatResult := .ok 54321 } =
      { result := .ok ("photo_1" ++ "_print.jpg")
        actions := [.sharpToFile
          { width := 1800, height := 1200, fit := "cover", position := "center"
            quality := 95, progressive := false, mozjpeg := false
            chromaSubsampling := "4:4:4", forceFormat := true, colorspace := "srgb" }
          ("photo_1" ++ "_print.jpg")] }
  ∧ ("photo_1" ++ ".jpg") = "photo_1.jpg" ∧ ("photo_1" ++ "_print.jpg") = "photo_1_print.jpg" := by
  refine ⟨?_, by decide, by decide⟩
  exact prepare_image_valid_output "photo_1" _ 123456 1920 1080 54321 "jpeg"
    rfl (by decide) (by decide) rfl (by decide) (by decide) (by decide)
    rfl rfl (by decide)

/-- Counterexample for C3 as frozen: an empty input file is rejected, but
with the wrapped message `Image processing failed: Image file is empty`,
not with the bare message `Image file is empty` the claim names. -/
theorem prepare_image_rejections_counterexample :
    (prepareImageForPrint "a.jpg"
      { statResult := .ok 0
        metaResult := .ok { width := some 1920, height := some 1080, format := some "jpeg" }
        writeResult := .ok ()
        outputStatResult := .ok 1 }).result ≠ .error "Image file is empty"
  ∧ (prepareImageForPrint "a.jpg"
      { statResult := .ok 0
        metaResult := .ok { width := some 1920, height := some 1080, format := some "jpeg" }
        writeResult := .ok ()
        outputStatResult := .ok 1 }).result =
      .error "Image processing failed: Image file is empty" := by
  constructor
  · decide
  · decide

/-- C3 (amended): before any spooler command, the validation rejections
carry their specific texts wrapped as `Image processing failed: <text>`
(empty file, over-50MB file, under-100px dimensions), while a non-existent
path (ENOENT) is rejected with exactly `Image file not found`; on every
failure the output path is unlinked (deletion errors ignored); preparation
performs no spooler command, and a failed preparation rejects `printImage`
without touching the queue or submitting anything. -/
theorem prepare_image_rejections (imagePath : String) (env : PrepEnv) :
    (∀ e : JsError, env.statResult = .error e → e.code = some "ENOENT" →
       prepareImageForPrint imagePath env =
         { result := .error "Image file not found"
           actions := [.unlinkFile (replaceJpgSuffix imagePath)] })
  ∧ (env.statResult = .ok 0 →
       prepareImageForPrint imagePath env =
         { result := .error "Image processing failed: Image file is empty"
           actions := [.unlinkFile (replaceJpgSuffix imagePath)] })
  ∧ (∀ n : Nat, env.statResult = .ok n → 50 * 1024 * 1024 < n →
       prepareImageForPrint imagePath env =
         { result := .error "Image processing failed: Image file is too large (max 50MB)"
           actions := [.unlinkFile (replaceJpgSuffix imagePath)] })
  ∧ (∀ (n w hgt : Nat) (fmt : Option String),
       env.statResult = .ok n → n ≠ 0 → n ≤ 50 * 1024 * 1024 →
       env.metaResult = .ok { width := some w, height := some hgt, format := fmt } →
       0 < w → 0 < hgt → w < 100 ∨ hgt < 100 →
       prepareImageForPrint imagePath env =
         { result := .error
             "Image processing failed: Image resolution too low (minimum 100x100 pixels)"
           actions := [.unlinkFile (replaceJpgSuffix imagePath)] })
  ∧ (∀ c : String, FsAction.spoolerCommand c ∉ (prepareImageForPrint imagePath env).actions)
  ∧ (∀ (msg : String) (jid : Nat) (s : QState),
       (prepareImageForPrint imagePath env).result = .error msg →
       printImage imagePath env jid s = (s, [], .error msg)) := by
  refine ⟨?_, ?_, ?_, ?_, ?_, ?_⟩
  · intro e hs hc
    unfold prepareImageForPrint
    rw [hs]
    simp [mapPrintError, hc]
  · intro hs
    unfold prepareImageForPrint
    rw [hs]
    simp [mapPrintError, jsIncludes]
  · intro n hs hbig
    have hn0 : ¬ n = 0 := by omega
    unfold prepareImageForPrint
    rw [hs]
    simp [hn0, hbig, mapPrintError, jsIncludes]
  · intro n w hgt fmt hs hn0 hn50 hmeta hw hh hsmall
    have hbig : ¬ 50 * 1024 * 1024 < n := by omega
    have hw0 : w ≠ 0 := by omega
    have hh0 : hgt ≠ 0 := by omega
    unfold prepareImageForPrint
    rw [hs, hmeta]
    rcases hsmall with hlt | hlt <;>
      simp [hn0, hbig, jsFalsy, hw0, hh0, hlt, mapPrintError, jsIncludes]
  · intro c
    rcases prepareImageForPrint_actions imagePath env with hA | hA | hA <;> rw [hA] <;> simp
  · intro msg jid s hres
    unfold printImage
    rw [hres]

/-- Witness for C3 (amended) on concrete environments: ENOENT, empty file,
oversized file, 99x99 image, and a failed preparation rejecting
`printImage` untouched. -/
theorem prepare_image_rejections_instance :
    (prepareImageForPrint "a.jpg"
      { statResult := .error { code := some "ENOENT", message := "no such file" }
        metaResult := .ok { width := some 1, height := some 1, format := some "jpeg" }
        writeResult := .ok (), outputStatResult := .ok 1 } =
      { result := .error "Image file not found", actions := [.unlinkFile "a_print.jpg"] })
  ∧ (prepareImageForPrint "a.jpg"
      { statResult := .ok 0
        metaResult := .ok { width := some 1, height := some 1, format := some "jpeg" }
        writeResult := .ok (), outputStatResult := .ok 1 } =
      { result := .error "Image processing failed: Image file is empty"
        actions := [.unlinkFile "a_print.jpg"] })
  ∧ (prepareImageForPrint "a.jpg"
      { statResult := .ok (50 * 1024 * 1024 + 1)
        metaResult := .ok { width := some 1, height := some 1, format := some "jpeg" }
        writeResult := .ok (), outputStatResult := .ok 1 } =
      { result := .error "Image processing failed: Image file is too large (max 50MB)"
        actions := [.unlinkFile "a_print.jpg"] })
  ∧ (prepareImageForPrint "a.jpg"
      { statResult := .ok 5000
        metaResult := .ok { width := some 99, height := some 99, format := some "jpeg" }
        writeResult := .ok (), outputStatResult := .ok 1 } =
      { result := .error
          "Image processing failed: Image resolution too low (minimum 100x100 pixels)"
        actions := [.unlinkFile "a_print.jpg"] })
  ∧ (printImage "a.jpg"
      { statResult := .ok 0
        metaResult := .ok { width := some 1, height := some 1, format := some "jpeg" }
        writeResult := .ok (), outputStatResult := .ok 1 } 1 initQState =
      (initQState, [], .error "Image processing failed: Image file is empty")) := by
  have hout : replaceJpgSuffix "a.jpg" = "a_print.jpg" := by decide
  refine ⟨?_, ?_, ?_, ?_, ?_⟩
  · have h := (prepare_image_rejections "a.jpg"
      { statResult := .error { code := some "ENOENT", message := "no such file" }
        metaResult := .ok { width := some 1, height := some 1, format := some "jpeg" }
        writeResult := .ok (), outputStatResult := .ok 1 }).1
      { code := some "ENOENT", message := "no such file" } rfl rfl
    rw [hout] at h
    exact h
  · have h := (prepare_image_rejections "a.jpg"
      { statResult := .ok 0
        metaResult := .ok { width := some 1, height := some 1, format := some "jpeg" }
        writeResult := .ok (), outputStatResult := .ok 1 }).2.1 rfl
    rw [hout] at h
    exact h
  · have h := (prepare_image_rejections "a.jpg"
      { statResult := .ok (50 * 1024 * 1024 + 1)
        metaResult := .ok { width := some 1, height := some 1, format := some "jpeg" }
        writeResult := .ok (), outputStatResult := .ok 1 }).2.2.1
      (50 * 1024 * 1024 + 1) rfl (by omega)
    rw [hout] at h
    exact h
  · have h := (prepare_image_rejections "a.jpg"
      { statResult := .ok 5000
        metaResult := .ok { width := some 99, height := some 99, format := some "jpeg" }
        writeResult := .ok (), outputStatResult := .ok 1 }).2.2.2.1 5000 99 99 (some "jpeg")
      rfl (by decide) (by decide) rfl (by decide) (by decide) (Or.inl (by decide))
    rw [hout] at h
    exact h
  · exact (prepare_image_rejections "a.jpg"
      { statResult := .ok 0
        metaResult := .ok { width := some 1, height := some 1, format := some "jpeg" }
        writeResult := .ok (), outputStatResult := .ok 1 }).2.2.2.2.2
      "Image processing failed: Image file is empty" 1 initQState (by decide)

/-- Counterexample for C10 as frozen: the path `photo_print.jpg.png` does
not end in `.jpg`, yet the queue-processing cleanup does delete the job's
file, because the guard tests `includes('_print.jpg')` and this path
contains that substring. -/
theorem nonjpg_cleanup_counterexample :
    ((".jpg".data).isSuffixOf "photo_print.jpg.png".data = false)
  ∧ jsIncludes "photo_print.jpg.png" "_print.jpg" = true
  ∧ (qstep { queue := [], isPrinting := true
             inFlight := some { id := 1, path := "photo_print.jpg.png" }, pendingTimers := 0 }
       (.complete true false)).2 =
      [QAction.settle { id := 1, path := "photo_print.jpg.png" } true,
       QAction.unlinkTemp "photo_print.jpg.png" false] := by
  refine ⟨by decide, by decide, by decide⟩

/-- C10 (amended): for an input path not ending in `.jpg` the anchored
replacement matches nothing, so the computed output path is the input path
itself and every sharp write targets the original file; on any preparation
failure the cleanup deletes the original source file; and the
queue-processing cleanup skips deletion exactly for job paths that do not
contain the substring `_print.jpg` (rather than for all non-`.jpg` paths). -/
theorem nonjpg_output_path (imagePath : String) (env : PrepEnv) :
    ((".jpg".data).isSuffixOf imagePath.data = false → replaceJpgSuffix imagePath = imagePath)
  ∧ ((".jpg".data).isSuffixOf imagePath.data = false →
      ∀ (spec : ProcessSpec) (q : String),
        FsAction.sharpToFile spec q ∈ (prepareImageForPrint imagePath env).actions →
          q = imagePath)
  ∧ ((".jpg".data).isSuffixOf imagePath.data = false →
      ∀ msg : String, (prepareImageForPrint imagePath env).result = .error msg →
        FsAction.unlinkFile imagePath ∈ (prepareImageForPrint imagePath env).actions)
  ∧ (∀ (s : QState) (j : PrintJob) (ok uf : Bool), s.inFlight = some j →
      jsIncludes j.path "_print.jpg" = false →
      (qstep s (.complete ok uf)).2 =
        [QAction.settle j ok] ++ (if s.queue.isEmpty then [] else [QAction.schedule 1000])) := by
  have hrepl : (".jpg".data).isSuffixOf imagePath.data = false →
      replaceJpgSuffix imagePath = imagePath := by
    intro hnj
    unfold replaceJpgSuffix
    rw [hnj]
    simp
  refine ⟨hrepl, ?_, ?_, ?_⟩
  · intro hnj spec q hq
    rcases prepareImageForPrint_actions imagePath env with hA | hA | hA <;>
      rw [hA, hrepl hnj] at hq <;> simp at hq
    · exact hq.2
    · exact hq.2
  · intro hnj msg hres
    have := prepareImageForPrint_error_unlink imagePath env msg hres
    rwa [hrepl hnj] at this
  · intro s j ok uf hf hp
    by_cases h2 : s.queue.isEmpty = true <;> simp [qstep, hf, hp, h2]

/-- Witness for C10 (amended) on the concrete path `scan.png`: the output
path is the input itself, a stat failure leads to the original file being
unlinked, and a completed job with a path free of `_print.jpg` is not
deleted by the queue cleanup. -/
theorem nonjpg_output_path_instance :
    replaceJpgSuffix "scan.png" = "scan.png"
  ∧ FsAction.unlinkFile "scan.png" ∈
      (prepareImageForPrint "scan.png"
        { statResult := .error { code := none, message := "boom" }
          metaResult := .ok { width := some 1, height := some 1, format := some "png" }
          writeResult := .ok (), outputStatResult := .ok 1 }).actions
  ∧ (qstep { queue := [], isPrinting := true
             inFlight := some { id := 1, path := "scan.png" }, pendingTimers := 0 }
       (.complete true false)).2 =
      [QAction.settle { id := 1, path := "scan.png" } true] ++ [] := by
  refine ⟨?_, ?_, ?_⟩
  · exact (nonjpg_output_path "scan.png"
      { statResult := .error { code := none, message := "boom" }
        metaResult := .ok { width := some 1, height := some 1, format := some "png" }
        writeResult := .ok (), outputStatResult := .ok 1 }).1 (by decide)
  · exact (nonjpg_output_path "scan.png" _).2.2.1 (by decide)
      "Image processing failed: boom" (by decide)
  · exact (nonjpg_output_path "scan.png"
      { statResult := .error { code := none, message := "boom" }
        metaResult := .ok { width := some 1, height := some 1, format := some "png" }
        writeResult := .ok (), outputStatResult := .ok 1 }).2.2.2
      _ _ true false rfl (by decide)

/-! ## Camera status parsing (CameraController.getStatus) -/

/-- JavaScript `\s` on the ASCII range: space, tab, line feed, carriage
return, vertical tab, form feed. -/
def isWsChar (c : Char) : Bool :=
  c == ' ' || c == '\t' || c == '\n' || c == '\r' || c == '\x0b' || c == '\x0c'

/-- `str.split(sep)` for a single-character separator: splits at every
occurrence, keeping empty pieces. -/
def splitChar (sep : Char) : List Char → List (List Char)
  | [] => [[]]
  | c :: rest =>
    if c = sep then [] :: splitChar sep rest
    else
      match splitChar sep rest with
      | [] => [[c]]
      | t :: ts => (c :: t) :: ts

/-- `arr.join(sep)` for a single-character separator. -/
def joinChar (sep : Char) : List (List Char) → List Char
  | [] => []
  | [t] => t
  | t :: ts => t ++ sep :: joinChar sep ts

mutual

/-- Worker for `str.split(/\s+/)`: consuming non-whitespace into the
current token `acc`. -/
def splitWsGo : List Char → List Char → List (List Char)
  | [], acc => [acc.reverse]
  | c :: rest, acc =>
    if isWsChar c then acc.reverse :: splitWsSkip rest
    else splitWsGo rest (c :: acc)
termination_by l _ => l.length

/-- Worker for `str.split(/\s+/)`: consuming a whitespace run. -/
def splitWsSkip : List Char → List (List Char)
  | [] => [[]]
  | c :: rest => if isWsChar c then splitWsSkip rest else splitWsGo rest [c]
termination_by l => l.length

end

/-- `str.split(/\s+/)`: tokens separated by maximal whitespace runs, with
an empty leading (trailing) piece when the string starts (ends) with
whitespace. -/
def jsSplitWs (l : List Char) : List (List Char) := splitWsGo l []

/-- `str.trim()`: strip whitespace from both ends. -/
def jsTrimChars (l : List Char) : List Char :=
  ((l.dropWhile isWsChar).reverse.dropWhile isWsChar).reverse

/-- `arr.join(' ')`. -/
def joinSpace : List (List Char) → List Char
  | [] => []
  | [t] => t
  | t :: ts => t ++ ' ' :: joinSpace ts

/-- `hay.includes(needle)` over character lists. -/
def jsIncludesChars (hay needle : List Char) : Bool :=
  hay.tails.any (fun t => needle.isPrefixOf t)

/-- The parsed camera status shape from `CameraController.getStatus`. -/
structure CameraStatus where
  connected : Bool
  model : Option String
  port : Option String
  error : Option String
deriving Repr, DecidableEq

/-- Shallow embedding of `CameraController.getStatus` (resolving revision):
on command failure resolve `{connected:false, error}`; otherwise split the
output into lines, find the first line containing `Canon`, split it on
whitespace runs, and return all tokens but the last joined by single
spaces and trimmed as the model, with the last token as the port; with no
matching line resolve `{connected:false, model:null, port:null}`.
`parseCameraLine` is the found-line branch of `getStatus`. -/
def parseCameraLine (cameraLine : List Char) : CameraStatus :=
  let parts := jsSplitWs cameraLine
  { connected := true
    model := some { data := jsTrimChars (joinSpace parts.dropLast) }
    port := some { data := parts.getLastD [] }
    error := none }

def getStatus (cmdResult : Except JsError String) : CameraStatus :=
  match cmdResult with
  | .error e => { connected := false, model := none, port := none, error := some e.message }
  | .ok stdout =>
    match (splitChar '\n' stdout.data).find? (fun l => jsIncludesChars l "Canon".data) with
    | some cameraLine => parseCameraLine cameraLine
    | none => { connected := false, model := none, port := none, error := none }

/-- A whitespace-free, non-empty token of a detection line. -/
def goodTok (t : List Char) : Prop := t ≠ [] ∧ ∀ c ∈ t, isWsChar c = false

/-- A non-empty all-whitespace separator run. -/
def goodSep (sp : List Char) : Prop := sp ≠ [] ∧ ∀ c ∈ sp, isWsChar c = true

instance (t : List Char) : Decidable (goodTok t) := by
  unfold goodTok
  infer_instance

instance (sp : List Char) : Decidable (goodSep sp) := by
  unfold goodSep
  infer_instance

/-- A detection line built from tokens interleaved with separator runs. -/
def interleave : List (List Char) → List (List Char) → List Char
  | [], _ => []
  | [t], _ => t
  | t :: ts, [] => t ++ interleave ts []
  | t :: ts, sp :: sps => t ++ sp ++ interleave ts sps

theorem splitChar_no_sep (sep : Char) :
    ∀ l : List Char, sep ∉ l → splitChar sep l = [l] := by
  intro l
  induction l with
  | nil => intro _; rfl
  | cons c rest ih =>
    intro h
    have hc : ¬ c = sep := fun hcs => h (hcs ▸ List.mem_cons_self c rest)
    have hrest : sep ∉ rest := fun hm => h (List.mem_cons_of_mem c hm)
    rw [splitChar, if_neg hc, ih hrest]

theorem splitChar_append (sep : Char) :
    ∀ (l1 : List Char), sep ∉ l1 → ∀ l2 : List Char,
      splitChar sep (l1 ++ sep :: l2) = l1 :: splitChar sep l2 := by
  intro l1
  induction l1 with
  | nil =>
    intro _ l2
    show splitChar sep (sep :: l2) = [] :: splitChar sep l2
    rw [splitChar, if_pos rfl]
  | cons c rest ih =>
    intro h l2
    have hc : ¬ c = sep := fun hcs => h (hcs ▸ List.mem_cons_self c rest)
    have hrest : sep ∉ rest := fun hm => h (List.mem_cons_of_mem c hm)
    show splitChar sep (c :: (rest ++ sep :: l2)) = (c :: rest) :: splitChar sep l2
    rw [splitChar, if_neg hc, ih hrest l2]

theorem splitChar_joinChar (sep : Char) :
    ∀ lines : List (List Char), lines ≠ [] → (∀ l ∈ lines, sep ∉ l) →
      splitChar sep (joinChar sep lines) = lines := by
  intro lines
  induction lines with
  | nil => intro h _; exact absurd rfl h
  | cons t ts ih =>
    intro _ hall
    cases ts with
    | nil =>
      show splitChar sep t = [t]
      exact splitChar_no_sep sep t (hall t (List.mem_cons_self t []))
    | cons t2 ts' =>
      show splitChar sep (t ++ sep :: joinChar sep (t2 :: ts')) = t :: t2 :: ts'
      rw [splitChar_append sep t (hall t (List.mem_cons_self t _)) _]
      rw [ih (by simp) (fun l hl => hall l (List.mem_cons_of_mem t hl))]

theorem find?_middle {α : Type} (p : α → Bool) :
    ∀ (pre : List α) (x : α) (post : List α),
      (∀ a ∈ pre, p a = false) → p x = true →
      (pre ++ x :: post).find? p = some x := by
  intro pre
  induction pre with
  | nil =>
    intro x post _ hx
    simp [List.find?, hx]
  | cons a r ih =>
    intro x post hall hx
    have ha : p a = false := hall a (List.mem_cons_self a r)
    show (a :: (r ++ x :: post)).find? p = some x
    rw [List.find?]
    rw [ha]
    exact ih x post (fun b hb => hall b (List.mem_cons_of_mem a hb)) hx

theorem splitWsGo_token (t : List Char) (ht : ∀ c ∈ t, isWsChar c = false) :
    ∀ (X acc : List Char), splitWsGo (t ++ X) acc = splitWsGo X (t.reverse ++ acc) := by
  induction t with
  | nil => intro X acc; simp
  | cons c ts ih =>
    intro X acc
    have hc : isWsChar c = false := ht c (List.mem_cons_self c ts)
    have hts : ∀ d ∈ ts, isWsChar d = false := fun d hd => ht d (List.mem_cons_of_mem c hd)
    show splitWsGo (c :: (ts ++ X)) acc = splitWsGo X ((c :: ts).reverse ++ acc)
    rw [splitWsGo, if_neg (by simp [hc]), ih hts X (c :: acc)]
    congr 1
    simp

theorem splitWsSkip_ws (w : List Char) (hw : ∀ c ∈ w, isWsChar c = true) :
    ∀ X : List Char, splitWsSkip (w ++ X) = splitWsSkip X := by
  induction w with
  | nil => intro X; rfl
  | cons c ws ih =>
    intro X
    have hc : isWsChar c = true := hw c (List.mem_cons_self c ws)
    have hws : ∀ d ∈ ws, isWsChar d = true := fun d hd => hw d (List.mem_cons_of_mem c hd)
    show splitWsSkip (c :: (ws ++ X)) = splitWsSkip X
    rw [splitWsSkip, if_pos hc, ih hws X]

theorem splitWsSkip_eq_go (t : List Char) (h : goodTok t) (X : List Char) :
    splitWsSkip (t ++ X) = splitWsGo (t ++ X) [] := by
  obtain ⟨hne, hall⟩ := h
  cases t with
  | nil => exact absurd rfl hne
  | cons d t' =>
    have hd : isWsChar d = false := hall d (List.mem_cons_self d t')
    show splitWsSkip (d :: (t' ++ X)) = splitWsGo (d :: (t' ++ X)) []
    rw [splitWsSkip, if_neg (by simp [hd]), splitWsGo, if_neg (by simp [hd])]

theorem interleave_cons_decomp (t : List Char) (ts sps : List (List Char)) :
    ∃ R : List Char, interleave (t :: ts) sps = t ++ R := by
  cases ts with
  | nil =>
    refine ⟨[], ?_⟩
    cases sps with
    | nil => simp [show interleave [t] [] = t from rfl]
    | cons sp sps' => simp [show interleave [t] (sp :: sps') = t from rfl]
  | cons t2 ts' =>
    cases sps with
    | nil => exact ⟨interleave (t2 :: ts') [], rfl⟩
    | cons sp sps' =>
      exact ⟨sp ++ interleave (t2 :: ts') sps',
        by rw [show interleave (t :: t2 :: ts') (sp :: sps') =
            t ++ sp ++ interleave (t2 :: ts') sps' from rfl, List.append_assoc]⟩

theorem splitWsGo_interleave :
    ∀ (toks seps : List (List Char)) (acc : List Char),
      toks ≠ [] → (∀ t ∈ toks, goodTok t) → (∀ sp ∈ seps, goodSep sp) →
      seps.length = toks.length - 1 →
      splitWsGo (interleave toks seps) acc = (acc.reverse ++ toks.headD []) :: toks.tail := by
  intro toks
  induction toks with
  | nil => intro seps acc h; exact absurd rfl h
  | cons t ts ih =>
    intro seps acc _ htoks hseps hlen
    have hgt : goodTok t := htoks t (List.mem_cons_self t ts)
    cases ts with
    | nil =>
      have h1 : interleave [t] seps = t := by cases seps <;> rfl
      rw [h1]
      have h2 : splitWsGo t acc = splitWsGo (t ++ []) acc := by simp
      rw [h2, splitWsGo_token t hgt.2 [] acc]
      simp [splitWsGo]
    | cons t2 ts' =>
      cases seps with
      | nil => simp at hlen
      | cons sp sps =>
        obtain ⟨hspne, hspws⟩ := hseps sp (List.mem_cons_self sp sps)
        have hrest : interleave (t :: t2 :: ts') (sp :: sps) =
            t ++ (sp ++ interleave (t2 :: ts') sps) := by
          rw [show interleave (t :: t2 :: ts') (sp :: sps) =
            t ++ sp ++ interleave (t2 :: ts') sps from rfl, List.append_assoc]
        rw [hrest, splitWsGo_token t hgt.2 _ acc]
        cases sp with
        | nil => exact absurd rfl hspne
        | cons c sp' =>
          have hc : isWsChar c = true := hspws c (List.mem_cons_self c sp')
          have hsp' : ∀ d ∈ sp', isWsChar d = true :=
            fun d hd => hspws d (List.mem_cons_of_mem c hd)
          show splitWsGo (c :: (sp' ++ interleave (t2 :: ts') sps)) (t.reverse ++ acc) =
            (acc.reverse ++ (t :: t2 :: ts').headD []) :: (t :: t2 :: ts').tail
          rw [splitWsGo, if_pos hc, splitWsSkip_ws sp' hsp' _]
          have hgt2 : goodTok t2 := htoks t2 (List.mem_cons_of_mem t (List.mem_cons_self t2 ts'))
          obtain ⟨R, hR⟩ := interleave_cons_decomp t2 ts' sps
          rw [hR, splitWsSkip_eq_go t2 hgt2 R, ← hR]
          have hih := ih sps [] (by simp)
            (fun u hu => htoks u (List.mem_cons_of_mem t hu))
            (fun u hu => hseps u (List.mem_cons_of_mem _ hu))
            (by simpa using hlen)
          rw [hih]
          simp

theorem dropWhile_head_false (p : Char → Bool) :
    ∀ l : List Char, (∀ c, l.head? = some c → p c = false) → l.dropWhile p = l := by
  intro l h
  cases l with
  | nil => rfl
  | cons c rest =>
    have hc : p c = false := h c rfl
    simp [List.dropWhile, hc]

theorem jsTrim_eq_self (l : List Char)
    (h1 : ∀ c, l.head? = some c → isWsChar c = false)
    (h2 : ∀ c, l.getLast? = some c → isWsChar c = false) : jsTrimChars l = l := by
  unfold jsTrimChars
  rw [dropWhile_head_false isWsChar l h1]
  rw [dropWhile_head_false isWsChar l.reverse
    (by intro c hc; apply h2; rwa [List.head?_reverse] at hc)]
  exact List.reverse_reverse l

theorem joinSpace_ne_nil :
    ∀ toks : List (List Char), toks ≠ [] → (∀ t ∈ toks, goodTok t) → joinSpace toks ≠ [] := by
  intro toks
  induction toks with
  | nil => intro h _; exact absurd rfl h
  | cons t ts _ =>
    intro _ hall
    obtain ⟨htne, _⟩ := hall t (List.mem_cons_self t ts)
    cases ts with
    | nil => simpa [joinSpace] using htne
    | cons t2 ts' =>
      show t ++ ' ' :: joinSpace (t2 :: ts') ≠ []
      simp

theorem joinSpace_head (toks : List (List Char)) (hne : toks ≠ [])
    (hall : ∀ t ∈ toks, goodTok t) :
    ∀ c, (joinSpace toks).head? = some c → isWsChar c = false := by
  cases toks with
  | nil => exact absurd rfl hne
  | cons t ts =>
    obtain ⟨htne, htws⟩ := hall t (List.mem_cons_self t ts)
    cases t with
    | nil => exact absurd rfl htne
    | cons d t' =>
      intro c hc
      have hd : isWsChar d = false := htws d (List.mem_cons_self d t')
      cases ts with
      | nil =>
        simp [joinSpace] at hc
        rwa [← hc]
      | cons t2 ts' =>
        have : joinSpace ((d :: t') :: t2 :: ts') = d :: (t' ++ ' ' :: joinSpace (t2 :: ts')) := by
          rfl
        rw [this] at hc
        simp at hc
        rwa [← hc]

theorem joinSpace_getLast (toks : List (List Char)) :
    toks ≠ [] → (∀ t ∈ toks, goodTok t) →
    ∀ c, (joinSpace toks).getLast? = some c → isWsChar c = false := by
  induction toks with
  | nil => intro h; exact absurd rfl h
  | cons t ts ih =>
    intro _ hall c hc
    obtain ⟨htne, htws⟩ := hall t (List.mem_cons_self t ts)
    cases ts with
    | nil =>
      have hjt : joinSpace [t] = t := rfl
      rw [hjt] at hc
      obtain ⟨hne2, heq⟩ := List.mem_getLast?_eq_getLast (Option.mem_def.mpr hc)
      rw [heq]
      exact htws _ (List.getLast_mem hne2)
    | cons t2 ts' =>
      have hjs : joinSpace (t :: t2 :: ts') = t ++ ' ' :: joinSpace (t2 :: ts') := rfl
      rw [hjs] at hc
      have hjne : joinSpace (t2 :: ts') ≠ [] :=
        joinSpace_ne_nil (t2 :: ts') (by simp)
          (fun u hu => hall u (List.mem_cons_of_mem t hu))
      rw [List.getLast?_append_cons] at hc
      rcases hJJ : joinSpace (t2 :: ts') with _ | ⟨j, J'⟩
      · exact absurd hJJ hjne
      · rw [hJJ, List.getLast?_cons_cons] at hc
        refine ih (by simp) (fun u hu => hall u (List.mem_cons_of_mem t hu)) c ?_
        rw [hJJ]
        exact hc

theorem getStatus_ok_some (stdout : String) (l : List Char)
    (h : (splitChar '\n' stdout.data).find? (fun u => jsIncludesChars u "Canon".data) = some l) :
    getStatus (.ok stdout) = parseCameraLine l := by
  show (match (splitChar '\n' stdout.data).find? (fun u => jsIncludesChars u "Canon".data) with
    | some cameraLine => parseCameraLine cameraLine
    | none => { connected := false, model := none, port := none, error := none }) =
    parseCameraLine l
  rw [h]

theorem getStatus_ok_none (stdout : String)
    (h : (splitChar '\n' stdout.data).find? (fun u => jsIncludesChars u "Canon".data) = none) :
    getStatus (.ok stdout) =
      { connected := false, model := none, port := none, error := none } := by
  show (match (splitChar '\n' stdout.data).find? (fun u => jsIncludesChars u "Canon".data) with
    | some cameraLine => parseCameraLine cameraLine
    | none => { connected := false, model := none, port := none, error := none }) =
    { connected := false, model := none, port := none, error := none }
  rw [h]

theorem find?_all_false {α : Type} (p : α → Bool) :
    ∀ l : List α, (∀ a ∈ l, p a = false) → l.find? p = none := by
  intro l
  induction l with
  | nil => intro _; rfl
  | cons a r ih =>
    intro h
    have ha : p a = false := h a (List.mem_cons_self a r)
    rw [List.find?]
    rw [ha]
    exact ih (fun b hb => h b (List.mem_cons_of_mem a hb))

/-- C7: given detection output containing a line that names a recognized
camera (`includes('Canon')` holds) as whitespace-free tokens separated by
whitespace runs with a final port token, `getStatus` returns
`{connected := true, model := all tokens but the last joined by single
spaces, port := the last token}`; given output with no such line it
returns `{connected := false, model := none, port := none}`; and when the
detection command itself fails it returns (does not throw)
`{connected := false, error := the command error's message}`. -/
theorem camera_status_parse :
    (∀ pre post toks seps : List (List Char),
      (∀ l ∈ pre, jsIncludesChars l "Canon".data = false) →
      (∀ l ∈ pre, '\n' ∉ l) →
      (∀ l ∈ post, '\n' ∉ l) →
      (∀ t ∈ toks, goodTok t) →
      (∀ sp ∈ seps, goodSep sp) →
      '\n' ∉ interleave toks seps →
      seps.length = toks.length - 1 →
      2 ≤ toks.length →
      jsIncludesChars (interleave toks seps) "Canon".data = true →
      getStatus (.ok { data := joinChar '\n' (pre ++ interleave toks seps :: post) }) =
        { connected := true
          model := some { data := joinSpace toks.dropLast }
          port := some { data := toks.getLastD [] }
          error := none })
  ∧ (∀ stdout : String,
      (∀ l ∈ splitChar '\n' stdout.data, jsIncludesChars l "Canon".data = false) →
      getStatus (.ok stdout) =
        { connected := false, model := none, port := none, error := none })
  ∧ (∀ e : JsError,
      getStatus (.error e) =
        { connected := false, model := none, port := none, error := some e.message }) := by
  refine ⟨?_, ?_, fun e => rfl⟩
  · intro pre post toks seps hpre hpren hpostn htoks hseps hlinen hlen htl hcanon
    have htne : toks ≠ [] := by
      intro h
      rw [h] at htl
      simp at htl
    have hnonl : ∀ l ∈ pre ++ interleave toks seps :: post, '\n' ∉ l := by
      intro l hl
      rcases List.mem_append.mp hl with h | h
      · exact hpren l h
      · rcases List.mem_cons.mp h with rfl | h2
        · exact hlinen
        · exact hpostn l h2
    have hsplit : splitChar '\n' (joinChar '\n' (pre ++ interleave toks seps :: post)) =
        pre ++ interleave toks seps :: post :=
      splitChar_joinChar '\n' _ (by simp) hnonl
    have hfind : (splitChar '\n'
        ({ data := joinChar '\n' (pre ++ interleave toks seps :: post) } : String).data).find?
          (fun u => jsIncludesChars u "Canon".data) = some (interleave toks seps) := by
      show (splitChar '\n' (joinChar '\n' (pre ++ interleave toks seps :: post))).find?
          (fun u => jsIncludesChars u "Canon".data) = some (interleave toks seps)
      rw [hsplit]
      exact find?_middle _ pre _ post hpre hcanon
    rw [getStatus_ok_some _ _ hfind]
    unfold parseCameraLine
    have hparts : jsSplitWs (interleave toks seps) = toks := by
      unfold jsSplitWs
      rw [splitWsGo_interleave toks seps [] htne htoks hseps hlen]
      cases toks with
      | nil => exact absurd rfl htne
      | cons t ts => simp
    rw [hparts]
    show ({ connected := true
            model := some { data := jsTrimChars (joinSpace toks.dropLast) }
            port := some { data := toks.getLastD [] }
            error := none } : CameraStatus) =
      { connected := true
        model := some { data := joinSpace toks.dropLast }
        port := some { data := toks.getLastD [] }
        error := none }
    have hdlne : toks.dropLast ≠ [] := by
      have hlendl : toks.dropLast.length = toks.length - 1 := List.length_dropLast toks
      intro h
      rw [h] at hlendl
      simp at hlendl
      omega
    have hdlgood : ∀ t ∈ toks.dropLast, goodTok t :=
      fun t ht => htoks t (List.dropLast_subset toks ht)
    have htrim : jsTrimChars (joinSpace toks.dropLast) = joinSpace toks.dropLast :=
      jsTrim_eq_self _ (joinSpace_head _ hdlne hdlgood) (joinSpace_getLast _ hdlne hdlgood)
    rw [htrim]
  · intro stdout hall
    exact getStatus_ok_none stdout (find?_all_false _ _ hall)

/-- Witness for C7 on the canonical `gphoto2 --auto-detect` shapes: a
header line plus `Canon EOS M50                  usb:001,002`, a
header-only output, and a failing command. -/
theorem camera_status_parse_instance :
    getStatus (.ok (String.mk (joinChar '\n'
        (["Model                          Port".data] ++
          interleave ["Canon".data, "EOS".data, "M50".data, "usb:001,002".data]
            [" ".data, " ".data, "                  ".data] :: [])))) =
      { connected := true
        model := some (String.mk (joinSpace
          (["Canon".data, "EOS".data, "M50".data, "usb:001,002".data]).dropLast))
        port := some (String.mk
          ((["Canon".data, "EOS".data, "M50".data, "usb:001,002".data]).getLastD []))
        error := none }
  ∧ (String.mk (joinSpace
      (["Canon".data, "EOS".data, "M50".data, "usb:001,002".data]).dropLast) = "Canon EOS M50")
  ∧ (String.mk ((["Canon".data, "EOS".data, "M50".data, "usb:001,002".data]).getLastD []) =
      "usb:001,002")
  ∧ getStatus (.ok "Model                          Port\n") =
      { connected := false, model := none, port := none, error := none }
  ∧ getStatus (.error { code := none, message := "gphoto2: command not found" }) =
      { connected := false, model := none, port := none
        error := some "gphoto2: command not found" } := by
  refine ⟨?_, by decide, by decide, ?_, ?_⟩
  · exact camera_status_parse.1
      ["Model                          Port".data] []
      ["Canon".data, "EOS".data, "M50".data, "usb:001,002".data]
      [" ".data, " ".data, "                  ".data]
      (by decide) (by decide) (by decide) (by decide) (by decide) (by decide)
      (by decide) (by decide) (by decide)
  · exact camera_status_parse.2.1 _ (by decide)
  · exact camera_status_parse.2.2 _

/-! ## Browser client print-complete handling (client/app.js) -/

/-- The client state fields touched by the print-complete handlers. -/
structure ClientState where
  isCapturing : Bool
  isConnected : Bool
deriving Repr, DecidableEq

/-- Effects a client socket handler performs: showing a notification,
assigning the in-flight capture flag, refreshing the capture button, or
scheduling a delayed re-arm (`setTimeout` whose callback emits
`prepare-capture` when still connected). -/
inductive ClientEffect where
  | notify : String → ClientEffect
  | setCapturing : Bool → ClientEffect
  | updateCaptureButton : ClientEffect
  | scheduleReprepare : Nat → ClientEffect
deriving Repr, DecidableEq

/-- The first registered `print-complete` listener (app.js lines 60-64). -/
def printCompleteHandlerOne (s : ClientState) : ClientState × List ClientEffect :=
  ({ s with isCapturing := false },
   [.notify "Photo printed successfully!", .setCapturing false, .updateCaptureButton])

/-- The second registered `print-complete` listener (app.js lines 80-92),
which additionally schedules the 3-second re-arm. -/
def printCompleteHandlerTwo (s : ClientState) : ClientState × List ClientEffect :=
  ({ s with isCapturing := false },
   [.notify "Photo printed successfully!", .setCapturing false, .updateCaptureButton,
    .scheduleReprepare 3000])

/-- Run a list of listeners in registration order, as the socket client
does for multiple `socket.on` registrations of the same event. -/
def dispatchHandlers (s : ClientState) :
    List (ClientState → ClientState × List ClientEffect) → ClientState × List ClientEffect
  | [] => (s, [])
  | h :: hs =>
      let p := h s
      let q := dispatchHandlers p.1 hs
      (q.1, p.2 ++ q.2)

/-- Both listeners registered for `print-complete`, in registration order. -/
def printCompleteHandlers : List (ClientState → ClientState × List ClientEffect) :=
  [printCompleteHandlerOne, printCompleteHandlerTwo]

/-- One `print-complete` event delivered to the client. -/
def dispatchPrintComplete (s : ClientState) : ClientState × List ClientEffect :=
  dispatchHandlers s printCompleteHandlers

/-- Firing the scheduled re-arm callback: emits `prepare-capture` only if
the client still believes itself connected. -/
def fireReprepare (s : ClientState) : List String :=
  if s.isConnected then ["prepare-capture"] else []

/-- C9: the client registers two separate `print-complete` listeners, so a
single `print-complete` shows the success notification twice, clears the
in-flight capture flag twice, and schedules the 3-second `prepare-capture`
re-arm exactly once — from the second handler only — which emits
`prepare-capture` when the client is connected at fire time and nothing
otherwise. -/
theorem client_double_print_complete (s : ClientState) :
    dispatchPrintComplete s =
      ({ s with isCapturing := false },
       [.notify "Photo printed successfully!", .setCapturing false, .updateCaptureButton,
        .notify "Photo printed successfully!", .setCapturing false, .updateCaptureButton,
        .scheduleReprepare 3000])
  ∧ (dispatchPrintComplete s).2.count (ClientEffect.notify "Photo printed successfully!") = 2
  ∧ (dispatchPrintComplete s).2.count (ClientEffect.setCapturing false) = 2
  ∧ (dispatchPrintComplete s).2.count (ClientEffect.scheduleReprepare 3000) = 1
  ∧ (printCompleteHandlerOne s).2.count (ClientEffect.scheduleReprepare 3000) = 0
  ∧ (printCompleteHandlerTwo s).2.count (ClientEffect.scheduleReprepare 3000) = 1
  ∧ (∀ s2 : ClientState, s2.isConnected = true → fireReprepare s2 = ["prepare-capture"])
  ∧ (∀ s2 : ClientState, s2.isConnected = false → fireReprepare s2 = []) := by
  have h1 : dispatchPrintComplete s =
      ({ s with isCapturing := false },
       [.notify "Photo printed successfully!", .setCapturing false, .updateCaptureButton,
        .notify "Photo printed successfully!", .setCapturing false, .updateCaptureButton,
        .scheduleReprepare 3000]) := rfl
  have h2 : (dispatchPrintComplete s).2 =
      [.notify "Photo printed successfully!", .setCapturing false, .updateCaptureButton,
       .notify "Photo printed successfully!", .setCapturing false, .updateCaptureButton,
       .scheduleReprepare 3000] := rfl
  have h3 : (printCompleteHandlerOne s).2 =
      [.notify "Photo printed successfully!", .setCapturing false, .updateCaptureButton] := rfl
  have h4 : (printCompleteHandlerTwo s).2 =
      [.notify "Photo printed successfully!", .setCapturing false, .updateCaptureButton,
       .scheduleReprepare 3000] := rfl
  refine ⟨h1, ?_, ?_, ?_, ?_, ?_, ?_, ?_⟩
  · rw [h2]; decide
  · rw [h2]; decide
  · rw [h2]; decide
  · rw [h3]; decide
  · rw [h4]; decide
  · intro s2 h
    unfold fireReprepare
    rw [h]
    rfl
  · intro s2 h
    unfold fireReprepare
    rw [h]
    rfl

/-- Witness for C9 at a connected, capturing client state. -/
theorem client_double_print_complete_instance :
    dispatchPrintComplete { isCapturing := true, isConnected := true } =
      ({ isCapturing := false, isConnected := true },
       [.notify "Photo printed successfully!", .setCapturing false, .updateCaptureButton,
        .notify "Photo printed successfully!", .setCapturing false, .updateCaptureButton,
        .scheduleReprepare 3000])
  ∧ fireReprepare { isCapturing := false, isConnected := true } = ["prepare-capture"]
  ∧ fireReprepare { isCapturing := false, isConnected := false } = [] := by
  refine ⟨?_, ?_, ?_⟩
  · exact (client_double_print_complete { isCapturing := true, isConnected := true }).1
  · exact (client_double_print_complete
      { isCapturing := true, isConnected := true }).2.2.2.2.2.2.1 _ rfl
  · exact (client_double_print_complete
      { isCapturing := true, isConnected := true }).2.2.2.2.2.2.2 _ rfl

end Photobooth
